import Mathlib

/-!
Verification of the `metabo_adni` QC pipeline against its specification.

The Python sources (pandas-based) are shallowly embedded: a cohort table
(`pandas.DataFrame` with `RID` integer index) becomes `DataFrame` below, a
missing value (NaN) becomes `none`, numeric analyte values become `ℚ` for the
exact-arithmetic stages and `ℝ` for the stages that need square roots and
logarithms.  Each definition carries a comment naming the Python function it
embeds; NaN-propagation corner cases of pandas (skipna means, comparisons with
NaN being false) are modelled explicitly with `Option` and guards.
-/

set_option maxHeartbeats 1000000

namespace MetaboAdni

variable {α : Type}

/-- Metabolomics platform.  `load.read_files` raises for any identifier other
than `'p180'` and `'nmr'`, so every downstream stage only ever receives one of
these two. -/
inductive Platform
  | p180
  | nmr
deriving DecidableEq

/-- Cohort family, as recognised by the substring tests in
`load._get_metabo_col_names` (`'ADNI1' in cohort`, `'ADNI2GO' in cohort`,
`'NMR' in cohort`; anything else selects no metabolite columns). -/
inductive CohortFamily
  | adni1
  | adni2go
  | nmrFam
  | unknownFam
deriving DecidableEq

/-- One table row: the participant identifier (the `RID` index, possibly
duplicated across replicate rows), the `Plate.Bar.Code` metadata cell
(modelled as a dedicated field, with barcodes reduced to an equality-only
token), and the remaining named cells.  `none` models a missing value. -/
structure Row (α : Type) where
  rid : Int
  plate : Nat
  cells : List (String × Option α)
deriving DecidableEq

instance : Inhabited (Row α) := ⟨{ rid := 0, plate := 0, cells := [] }⟩

/-- A cohort table: ordered column names plus rows. -/
structure DataFrame (α : Type) where
  cols : List String
  rows : List (Row α)
deriving DecidableEq

/-- Cell access by column label: first pair with the given name;
`Option.join` merges "column absent" into "missing", which coincides with
pandas whenever the row actually carries all the table's columns. -/
def Row.cellOf (r : Row α) (name : String) : Option α :=
  (r.cells.lookup name).join

/-- First metabolite column position per cohort family
(`load._get_metabo_col_names`: 7 for ADNI1, 24 for ADNI2GO, 25 for NMR). -/
def metaboStart : CohortFamily → Option Nat
  | .adni1 => some 7
  | .adni2go => some 24
  | .nmrFam => some 25
  | .unknownFam => none

/-- `load._get_metabo_col_names`: the positional slice
`columns[range(start, last_col - 1)]`, i.e. positions `start .. last_col - 2`
of the column list (the final column is always excluded). -/
def metaboNames (df : DataFrame α) (fam : CohortFamily) : List String :=
  match metaboStart fam with
  | none => []
  | some s => (df.cols.take (df.cols.length - 1)).drop s

/-- `load._get_data_indices`: p180 keeps genuine participant rows
(`index < 99999`, excluding the ≥ 999999 pool range); nmr keeps every row. -/
def eligibleRow (p : Platform) (r : Row α) : Bool :=
  match p with
  | .p180 => decide (r.rid < 99999)
  | .nmr => true

/-- The platform-eligible rows of a table (`dat_dict[key].loc[indices, ...]`). -/
def eligRows (df : DataFrame α) (p : Platform) : List (Row α) :=
  df.rows.filter (eligibleRow p)

/-- Row-level part of a column drop: remove the cells of the dropped labels. -/
def dropRowCells (names : List String) (r : Row α) : Row α :=
  { r with cells := r.cells.filter (fun pr => decide (pr.1 ∉ names)) }

/-- `DataFrame.drop(labels, axis=1)`: remove every column whose label occurs
in `names` (pandas drops all columns carrying a listed label). -/
def dropCols (df : DataFrame α) (names : List String) : DataFrame α :=
  { cols := df.cols.filter (fun c => decide (c ∉ names))
    rows := df.rows.map (dropRowCells names) }

/-- Number of missing cells of column `name` over the given rows
(`dat.isna().sum(axis=0)` for one column). -/
def missingCount (rows : List (Row α)) (name : String) : Nat :=
  (rows.map (fun r => r.cellOf name)).countP (fun v => v.isNone)

/-- Missing fraction of a column: missing count over row count
(`dat.isna().sum(axis=0) / total_rows`). -/
def missingFrac (rows : List (Row α)) (name : String) : ℚ :=
  (missingCount rows name : ℚ) / (rows.length : ℚ)

/-- `qc.metabolites._generate_missing_table`, reduced to its index (the
column labels to drop); the stored fraction column is only printed.  With
zero rows the pandas fraction is `0/0 = NaN` and `NaN > cutoff` is `False`,
hence the row-count guard. -/
def missingTableNames (rows : List (Row α)) (names : List String)
    (cutoff : ℚ) : List String :=
  names.filter (fun n =>
    decide (0 < rows.length) && decide (cutoff < missingFrac rows n))

/-- `qc.metabolites.remove_missing`, body of the per-cohort loop: drop the
analyte columns whose missing fraction over the platform-eligible rows
strictly exceeds the cutoff. -/
def remove_missing_table (df : DataFrame ℚ) (fam : CohortFamily)
    (p : Platform) (cutoff : ℚ) : DataFrame ℚ :=
  dropCols df (missingTableNames (eligRows df p) (metaboNames df fam) cutoff)

/-- `qc.metabolites.remove_missing` over the whole cohort dictionary. -/
def remove_missing (dd : List (CohortFamily × DataFrame ℚ)) (p : Platform)
    (cutoff : ℚ) : List (CohortFamily × DataFrame ℚ) :=
  dd.map (fun e => (e.1, remove_missing_table e.2 e.1 p cutoff))

section MissingLemmas

lemma mem_missingTableNames {rows : List (Row α)} {names : List String}
    {cutoff : ℚ} {n : String} :
    n ∈ missingTableNames rows names cutoff ↔
      n ∈ names ∧ 0 < rows.length ∧ cutoff < missingFrac rows n := by
  simp [missingTableNames, List.mem_filter, and_assoc]

lemma cols_dropCols (df : DataFrame α) (names : List String) :
    (dropCols df names).cols = df.cols.filter (fun c => decide (c ∉ names)) := rfl

end MissingLemmas

section DropLemmas

lemma lookup_cons {β : Type} (n k : String) (b : β) (tl : List (String × β)) :
    List.lookup n ((k, b) :: tl) = if n = k then some b else List.lookup n tl := by
  rw [List.lookup]
  cases h : (n == k)
  · simp [h, beq_eq_false_iff_ne.mp h]
  · simp [h, (beq_iff_eq (a := n) (b := k)).mp h]

lemma lookup_filter_not_mem {β : Type} (cells : List (String × β))
    (D : List String) (n : String) (hn : n ∉ D) :
    (cells.filter (fun pr => decide (pr.1 ∉ D))).lookup n = cells.lookup n := by
  induction cells with
  | nil => rfl
  | cons hd tl ih =>
    obtain ⟨k, b⟩ := hd
    by_cases hmem : k ∈ D
    · have hne : n ≠ k := by rintro rfl; exact hn hmem
      simp only [List.filter_cons]
      rw [if_neg (by simp [hmem]), ih, lookup_cons, if_neg hne]
    · simp only [List.filter_cons]
      rw [if_pos (by simp [hmem]), lookup_cons, lookup_cons, ih]

lemma cellOf_dropRowCells (r : Row α) (D : List String) (n : String)
    (hn : n ∉ D) : (dropRowCells D r).cellOf n = r.cellOf n := by
  rw [Row.cellOf, Row.cellOf, dropRowCells, lookup_filter_not_mem _ _ _ hn]

lemma eligibleRow_dropRowCells (p : Platform) (D : List String) (r : Row α) :
    eligibleRow p (dropRowCells D r) = eligibleRow p r := by
  cases p <;> rfl

lemma eligRows_dropCols (df : DataFrame α) (D : List String) (p : Platform) :
    eligRows (dropCols df D) p = (eligRows df p).map (dropRowCells D) := by
  rw [eligRows, dropCols, eligRows, List.filter_map]
  exact congrArg (List.map (dropRowCells D))
    (List.filter_congr (fun r _ => eligibleRow_dropRowCells p D r))

lemma missingCount_map_dropRowCells (rows : List (Row α)) (D : List String)
    (n : String) (hn : n ∉ D) :
    missingCount (rows.map (dropRowCells D)) n = missingCount rows n := by
  rw [missingCount, missingCount, List.map_map]
  congr 1
  apply List.map_congr_left
  intro r _
  rw [Function.comp_apply, cellOf_dropRowCells _ _ _ hn]

lemma dropRowCells_nil (r : Row α) : dropRowCells [] r = r := by
  rw [dropRowCells]
  have h : r.cells.filter (fun pr => decide (pr.1 ∉ ([] : List String))) =
      r.cells := List.filter_eq_self.mpr (by simp)
  rw [h]

lemma dropCols_nil (df : DataFrame α) : dropCols df [] = df := by
  rw [dropCols]
  have h1 : df.cols.filter (fun c => decide (c ∉ ([] : List String))) =
      df.cols := List.filter_eq_self.mpr (by simp)
  have h2 : df.rows.map (dropRowCells []) = df.rows := by
    rw [List.map_congr_left (fun r _ => dropRowCells_nil r)]
    simp
  rw [h1, h2]

/-- The positional metabolite window `(cols.take (len - 1)).drop s` commutes
with deleting a set of window columns from a duplicate-free column list: the
head block and the trailing column survive untouched, so the recomputed
window is exactly the filtered old window. -/
lemma window_filter (l : List String) (s : Nat) (D : List String)
    (hnd : l.Nodup)
    (hsub : ∀ x ∈ D, x ∈ (l.take (l.length - 1)).drop s) :
    (((l.filter (fun c => decide (c ∉ D))).take
        ((l.filter (fun c => decide (c ∉ D))).length - 1)).drop s) =
      ((l.take (l.length - 1)).drop s).filter (fun c => decide (c ∉ D)) := by
  by_cases hl : l = []
  · subst hl; simp
  have hlen : 1 ≤ l.length := List.length_pos.mpr hl
  by_cases hs : s ≤ l.length - 1
  · set A := (l.take (l.length - 1)).take s with hA
    set W := (l.take (l.length - 1)).drop s with hW
    set B := l.drop (l.length - 1) with hB
    have hAW : A ++ W = l.take (l.length - 1) := List.take_append_drop s _
    have hsplit : (A ++ W) ++ B = l := by
      rw [hAW]; exact List.take_append_drop _ l
    have hlenA : A.length = s := by
      rw [hA, List.length_take, List.length_take]; omega
    have hlenB : B.length = 1 := by
      rw [hB, List.length_drop]; omega
    have hnd2 : ((A ++ W) ++ B).Nodup := by rw [hsplit]; exact hnd
    obtain ⟨hndAW, hndB, hdisj2⟩ := List.nodup_append.mp hnd2
    obtain ⟨hndA, hndW, hdisjAW⟩ := List.nodup_append.mp hndAW
    have hfA : A.filter (fun c => decide (c ∉ D)) = A := by
      apply List.filter_eq_self.mpr
      intro a ha
      simp only [decide_eq_true_eq]
      intro haD
      exact hdisjAW ha (hsub a haD)
    have hfB : B.filter (fun c => decide (c ∉ D)) = B := by
      apply List.filter_eq_self.mpr
      intro b hb
      simp only [decide_eq_true_eq]
      intro hbD
      exact hdisj2 (List.mem_append_right A (hsub b hbD)) hb
    have hfilter : l.filter (fun c => decide (c ∉ D)) =
        (A ++ W.filter (fun c => decide (c ∉ D))) ++ B := by
      rw [← hsplit, List.filter_append, List.filter_append, hfA, hfB]
    rw [hfilter]
    have hlen2 : ((A ++ W.filter (fun c => decide (c ∉ D))) ++ B).length - 1 =
        (A ++ W.filter (fun c => decide (c ∉ D))).length := by
      rw [List.length_append, hlenB]
      omega
    rw [hlen2, List.take_left' rfl, List.drop_left' hlenA]

  · have hWnil : (l.take (l.length - 1)).drop s = [] := by
      apply List.drop_eq_nil_of_le
      rw [List.length_take]; omega
    have hD : D = [] := by
      cases D with
      | nil => rfl
      | cons d tl =>
        have := hsub d (by simp)
        rw [hWnil] at this
        exact absurd this (List.not_mem_nil d)
    subst hD
    have hid : l.filter (fun c => decide (c ∉ ([] : List String))) = l :=
      List.filter_eq_self.mpr (by simp)
    rw [hid, hWnil]
    rfl

/-- Removing a set of metabolite-window columns from a duplicate-free table
recomputes the positional window as exactly the surviving old window. -/
lemma metaboNames_dropCols (df : DataFrame α) (fam : CohortFamily)
    (D : List String) (hnd : df.cols.Nodup)
    (hsub : ∀ x ∈ D, x ∈ metaboNames df fam) :
    metaboNames (dropCols df D) fam =
      (metaboNames df fam).filter (fun c => decide (c ∉ D)) := by
  cases fam
  case adni1 => exact window_filter df.cols 7 D hnd hsub
  case adni2go => exact window_filter df.cols 24 D hnd hsub
  case nmrFam => exact window_filter df.cols 25 D hnd hsub
  case unknownFam => rfl

end DropLemmas

/-- C1.  For every cohort collection, platform and cutoff, the
metabolite-level missingness filter (`qc.metabolites.remove_missing`) maps
each table to one from which exactly those analyte columns are gone whose
missing fraction over the platform-eligible rows is strictly greater than the
cutoff; a column whose fraction equals the cutoff exactly is retained, and a
non-analyte column is never dropped. -/
theorem remove_missing_drops_iff (dd : List (CohortFamily × DataFrame ℚ))
    (p : Platform) (cutoff : ℚ) (i : Nat) (fam : CohortFamily)
    (df : DataFrame ℚ) (hget : dd[i]? = some (fam, df))
    (helig : 0 < (eligRows df p).length) :
    (remove_missing dd p cutoff)[i]? =
        some (fam, remove_missing_table df fam p cutoff) ∧
      ∀ name, name ∈ (remove_missing_table df fam p cutoff).cols ↔
        name ∈ df.cols ∧
          ¬(name ∈ metaboNames df fam ∧
            cutoff < missingFrac (eligRows df p) name) := by
  constructor
  · rw [remove_missing, List.getElem?_map, hget]
    rfl
  · intro name
    rw [remove_missing_table, cols_dropCols, List.mem_filter]
    simp only [decide_eq_true_eq, mem_missingTableNames]
    constructor
    · rintro ⟨hmem, hnot⟩
      exact ⟨hmem, fun ⟨h1, h2⟩ => hnot ⟨h1, helig, h2⟩⟩
    · rintro ⟨hmem, hnot⟩
      exact ⟨hmem, fun ⟨h1, _, h2⟩ => hnot ⟨h1, h2⟩⟩

/-- A concrete nine-column ADNI1 table with two participant rows and the
analyte column `"A"` missing in one of them (missing fraction 1/2). -/
def dfHalfMissing : DataFrame ℚ :=
  { cols := ["c0", "c1", "c2", "c3", "c4", "c5", "c6", "A", "z"],
    rows := [{ rid := 1, plate := 0, cells := [("A", some 3)] },
             { rid := 2, plate := 0, cells := [("A", none)] }] }

/-- Witness for C1 on a concrete table: with cutoff 0.5 the half-missing
analyte column `"A"` of `dfHalfMissing` is retained (its fraction equals the
cutoff exactly). -/
theorem remove_missing_drops_iff_witness :
    ([(CohortFamily.adni1, dfHalfMissing)] :
        List (CohortFamily × DataFrame ℚ))[0]? =
        some (CohortFamily.adni1, dfHalfMissing) ∧
      (0 : Nat) < (eligRows dfHalfMissing Platform.p180).length ∧
      "A" ∈ (remove_missing_table dfHalfMissing CohortFamily.adni1
          Platform.p180 (1 / 2)).cols := by
  refine ⟨by decide, by decide, ?_⟩
  have h := remove_missing_drops_iff [(CohortFamily.adni1, dfHalfMissing)]
    Platform.p180 (1 / 2) 0 CohortFamily.adni1 dfHalfMissing
    (by decide) (by decide)
  have h1 : missingCount (eligRows dfHalfMissing Platform.p180) "A" = 1 := by
    decide
  have h2 : (eligRows dfHalfMissing Platform.p180).length = 2 := by decide
  have hfrac : missingFrac (eligRows dfHalfMissing Platform.p180) "A" = 1 / 2 := by
    rw [missingFrac, h1, h2]
    norm_num
  refine (h.2 "A").mpr ⟨by decide, ?_⟩
  rintro ⟨-, hlt⟩
  rw [hfrac] at hlt
  exact lt_irrefl _ hlt

/-- One application of the missingness filter leaves a table on which a
second application with the same cutoff finds nothing to drop. -/
lemma remove_missing_table_idem (df : DataFrame ℚ) (fam : CohortFamily)
    (p : Platform) (cutoff : ℚ) (hnd : df.cols.Nodup) :
    remove_missing_table (remove_missing_table df fam p cutoff) fam p cutoff =
      remove_missing_table df fam p cutoff := by
  set D := missingTableNames (eligRows df p) (metaboNames df fam) cutoff with hD
  have hsub : ∀ x ∈ D, x ∈ metaboNames df fam := fun x hx =>
    (mem_missingTableNames.mp hx).1
  have hmet : metaboNames (dropCols df D) fam =
      (metaboNames df fam).filter (fun c => decide (c ∉ D)) :=
    metaboNames_dropCols df fam D hnd hsub
  have helig : eligRows (dropCols df D) p = (eligRows df p).map (dropRowCells D) :=
    eligRows_dropCols df D p
  have hlen : (eligRows (dropCols df D) p).length = (eligRows df p).length := by
    rw [helig, List.length_map]
  have hD2 : missingTableNames (eligRows (dropCols df D) p)
      (metaboNames (dropCols df D) fam) cutoff = [] := by
    rw [hmet]
    apply List.filter_eq_nil_iff.mpr
    intro n hn
    obtain ⟨hnW, hkeep⟩ := List.mem_filter.mp hn
    have hnD : n ∉ D := by simpa using hkeep
    simp only [Bool.and_eq_true, decide_eq_true_eq, not_and]
    intro hpos
    have hc : missingCount (eligRows (dropCols df D) p) n =
        missingCount (eligRows df p) n := by
      rw [helig, missingCount_map_dropRowCells _ _ _ hnD]
    have hfrac : missingFrac (eligRows (dropCols df D) p) n =
        missingFrac (eligRows df p) n := by
      rw [missingFrac, missingFrac, hc, hlen]
    rw [hfrac]
    intro hlt
    exact hnD (mem_missingTableNames.mpr ⟨hnW, by rwa [hlen] at hpos, hlt⟩)
  show remove_missing_table (dropCols df D) fam p cutoff = dropCols df D
  rw [remove_missing_table, hD2, dropCols_nil]

/-- C9.  For every cohort collection, platform and cutoff, the
metabolite-level missingness filter is idempotent: running
`qc.metabolites.remove_missing` a second time with the same cutoff on its own
output drops no further columns and returns every table unchanged.  (Column
labels are assumed duplicate-free, as pandas label indexing presupposes.) -/
theorem remove_missing_idempotent (dd : List (CohortFamily × DataFrame ℚ))
    (p : Platform) (cutoff : ℚ)
    (hnd : ∀ e ∈ dd, (e.2 : DataFrame ℚ).cols.Nodup) :
    remove_missing (remove_missing dd p cutoff) p cutoff =
      remove_missing dd p cutoff := by
  simp only [remove_missing]
  rw [List.map_map]
  apply List.map_congr_left
  intro e he
  have h := remove_missing_table_idem e.2 e.1 p cutoff (hnd e he)
  simp only [Function.comp_apply]
  rw [h]

/-- Witness for C9: idempotence evaluated on the concrete half-missing table
with cutoff 1/4 (which drops the analyte column on the first pass). -/
theorem remove_missing_idempotent_witness :
    remove_missing
        (remove_missing [(CohortFamily.adni1, dfHalfMissing)] Platform.p180
          (1 / 4)) Platform.p180 (1 / 4) =
      remove_missing [(CohortFamily.adni1, dfHalfMissing)] Platform.p180
        (1 / 4) :=
  remove_missing_idempotent [(CohortFamily.adni1, dfHalfMissing)]
    Platform.p180 (1 / 4) (by decide)

/-- NaN-propagating elementwise division (`Series / Series` in pandas:
the result is NaN whenever either operand is NaN). -/
def divOpt {β : Type} [Div β] : Option β → Option β → Option β
  | some a, some b => some (a / b)
  | _, _ => none

/-- skipna mean of a column (`Series.mean()` / `DataFrame.mean()` default):
drop the missing entries, average the rest, NaN when nothing remains. -/
def meanOpt {β : Type} [DivisionRing β] (xs : List (Option β)) : Option β :=
  let v := xs.filterMap id
  if v.isEmpty then none else some (v.sum / (v.length : β))

/-- `pandas.unique` / `Series.unique()`: first-occurrence deduplication. -/
def uniqueFirst {γ : Type} [DecidableEq γ] (l : List γ) : List γ :=
  l.foldl (fun acc x => if x ∈ acc then acc else acc ++ [x]) []

section UniqueFirstLemmas

variable {γ : Type} [DecidableEq γ]

lemma uniqueFirst_aux_nodup (l : List γ) (acc : List γ) (hacc : acc.Nodup) :
    (l.foldl (fun acc x => if x ∈ acc then acc else acc ++ [x]) acc).Nodup := by
  induction l generalizing acc with
  | nil => exact hacc
  | cons hd tl ih =>
    simp only [List.foldl_cons]
    by_cases hm : hd ∈ acc
    · rw [if_pos hm]; exact ih acc hacc
    · rw [if_neg hm]
      refine ih _ ?_
      rw [List.nodup_append]
      exact ⟨hacc, List.nodup_singleton hd, by simpa using hm⟩

lemma uniqueFirst_nodup (l : List γ) : (uniqueFirst l).Nodup :=
  uniqueFirst_aux_nodup l [] List.nodup_nil

lemma uniqueFirst_aux_mem (l : List γ) (acc : List γ) (x : γ) :
    x ∈ l.foldl (fun acc x => if x ∈ acc then acc else acc ++ [x]) acc ↔
      x ∈ acc ∨ x ∈ l := by
  induction l generalizing acc with
  | nil => simp
  | cons hd tl ih =>
    simp only [List.foldl_cons]
    by_cases hm : hd ∈ acc
    · rw [if_pos hm, ih]
      constructor
      · rintro (h | h)
        · exact Or.inl h
        · exact Or.inr (List.mem_cons_of_mem hd h)
      · rintro (h | h)
        · exact Or.inl h
        · rcases List.mem_cons.mp h with rfl | h
          · exact Or.inl hm
          · exact Or.inr h
    · rw [if_neg hm, ih]
      simp only [List.mem_append, List.mem_singleton, List.mem_cons]
      tauto

lemma mem_uniqueFirst (l : List γ) (x : γ) : x ∈ uniqueFirst l ↔ x ∈ l := by
  rw [uniqueFirst, uniqueFirst_aux_mem]
  simp

end UniqueFirstLemmas

/-- `dat.loc[999999, ]`: the pooled quality-control sample rows (index label
exactly 999999). -/
def poolRows (df : DataFrame ℚ) : List (Row ℚ) :=
  df.rows.filter (fun r => decide (r.rid = 999999))

/-- `dat_pool['Plate.Bar.Code'].unique()`: the distinct plates carrying at
least one pool row. -/
def poolPlates (df : DataFrame ℚ) : List Nat :=
  uniqueFirst ((poolRows df).map (fun r => r.plate))

/-- Plate-wise pool mean of one analyte
(`dat_pool.loc[dat_pool['Plate.Bar.Code'] == plate_name, metabo_names].mean()`). -/
def plateMean (df : DataFrame ℚ) (plate : Nat) (name : String) : Option ℚ :=
  meanOpt (((poolRows df).filter (fun r => decide (r.plate = plate))).map
    (fun r => r.cellOf name))

/-- Global pool mean of one analyte
(`dat_pool.loc[:, metabo_names].mean()`). -/
def globalPoolMean (df : DataFrame ℚ) (name : String) : Option ℚ :=
  meanOpt ((poolRows df).map (fun r => r.cellOf name))

/-- `correction = q / global_qc_average` for one analyte and plate. -/
def corrFor (df : DataFrame ℚ) (plate : Nat) (name : String) : Option ℚ :=
  divOpt (plateMean df plate name) (globalPoolMean df name)

/-- `new_dat = dat.loc[correct_rows, metabo_names] / correction`, on one row:
every metabolite cell is divided (NaN-propagating) by that plate's
correction factor; other cells are untouched. -/
def applyCorrCells (df : DataFrame ℚ) (fam : CohortFamily) (plate : Nat)
    (r : Row ℚ) : Row ℚ :=
  { r with cells := r.cells.map (fun pr =>
      (pr.1, if pr.1 ∈ metaboNames df fam then divOpt pr.2 (corrFor df plate pr.1)
             else pr.2)) }

/-- One plate iteration of the correction loop, on one row:
`correct_rows = (dat['Plate.Bar.Code'] == plate_name) & (dat.index < 99999)`.
The statistics are read from the pre-loop copy `dat` (passed as `df`), which
matches the source because each row matches at most one distinct plate. -/
def correctRow (df : DataFrame ℚ) (fam : CohortFamily) (plate : Nat)
    (r : Row ℚ) : Row ℚ :=
  if r.plate = plate ∧ r.rid < 99999 then applyCorrCells df fam plate r else r

/-- The plate loop of `qc.metabolites.cross_plate_correction`
(`for j in range(len(plates_ID)): ...`). -/
def crossPlateApply (df : DataFrame ℚ) (fam : CohortFamily) : DataFrame ℚ :=
  { df with
    rows := (poolPlates df).foldl
      (fun rows plate => rows.map (correctRow df fam plate)) df.rows }

/-- `qc.metabolites.cross_plate_correction`, one cohort table.  The platform
gate raises for any platform other than p180; the label lookup
`dat.loc[999999, ]` raises a `KeyError` when the table has no pool row at
all. -/
def cross_plate_correction (df : DataFrame ℚ) (fam : CohortFamily)
    (p : Platform) : Except String (DataFrame ℚ) :=
  match p with
  | .p180 =>
      if (poolRows df).isEmpty then .error "KeyError: 999999"
      else .ok (crossPlateApply df fam)
  | .nmr => .error "The platform should be p180 only"

section CrossPlateLemmas

lemma foldl_map_rows {γ : Type} (plates : List γ) (g : γ → Row ℚ → Row ℚ)
    (rows : List (Row ℚ)) :
    plates.foldl (fun rs pl => rs.map (g pl)) rows =
      rows.map (fun r => plates.foldl (fun r pl => g pl r) r) := by
  induction plates generalizing rows with
  | nil => simp
  | cons hd tl ih =>
    simp only [List.foldl_cons]
    rw [ih, List.map_map]
    rfl

lemma plate_applyCorrCells (df : DataFrame ℚ) (fam : CohortFamily)
    (plate : Nat) (r : Row ℚ) : (applyCorrCells df fam plate r).plate = r.plate :=
  rfl

lemma foldl_correctRow_not_mem (df : DataFrame ℚ) (fam : CohortFamily)
    (plates : List Nat) (r : Row ℚ) (h : r.plate ∉ plates) :
    plates.foldl (fun r pl => correctRow df fam pl r) r = r := by
  induction plates with
  | nil => rfl
  | cons hd tl ih =>
    have hne : r.plate ≠ hd := fun e => h (by simp [e])
    simp only [List.foldl_cons]
    rw [correctRow, if_neg (by rintro ⟨h1, -⟩; exact hne h1)]
    exact ih (fun hm => h (List.mem_cons_of_mem _ hm))

lemma foldl_correctRow_not_participant (df : DataFrame ℚ) (fam : CohortFamily)
    (plates : List Nat) (r : Row ℚ) (h : ¬(r.rid < 99999)) :
    plates.foldl (fun r pl => correctRow df fam pl r) r = r := by
  induction plates with
  | nil => rfl
  | cons hd tl ih =>
    simp only [List.foldl_cons]
    rw [correctRow, if_neg (by rintro ⟨-, h2⟩; exact h h2)]
    exact ih

lemma foldl_correctRow_mem (df : DataFrame ℚ) (fam : CohortFamily)
    (plates : List Nat) (hnd : plates.Nodup) (r : Row ℚ)
    (hrid : r.rid < 99999) (hmem : r.plate ∈ plates) :
    plates.foldl (fun r pl => correctRow df fam pl r) r =
      applyCorrCells df fam r.plate r := by
  induction plates with
  | nil => cases hmem
  | cons hd tl ih =>
    simp only [List.foldl_cons]
    by_cases he : r.plate = hd
    · rw [correctRow, if_pos ⟨he, hrid⟩]
      have hnotin : (applyCorrCells df fam hd r).plate ∉ tl := by
        rw [plate_applyCorrCells, he]
        exact (List.nodup_cons.mp hnd).1
      rw [foldl_correctRow_not_mem df fam tl _ hnotin, he]
    · have hmem' : r.plate ∈ tl := by
        rcases List.mem_cons.mp hmem with h1 | h1
        · exact absurd h1 he
        · exact h1
      rw [correctRow, if_neg (by rintro ⟨h1, -⟩; exact he h1)]
      exact ih (List.nodup_cons.mp hnd).2 hmem'

lemma lookup_map_entry {β : Type} (cells : List (String × β))
    (f : String → β → β) (n : String) :
    (cells.map (fun pr => (pr.1, f pr.1 pr.2))).lookup n =
      (cells.lookup n).map (f n) := by
  induction cells with
  | nil => rfl
  | cons hd tl ih =>
    obtain ⟨k, b⟩ := hd
    simp only [List.map_cons]
    rw [lookup_cons, lookup_cons]
    by_cases he : n = k
    · subst he
      rw [if_pos rfl, if_pos rfl]
      rfl
    · rw [if_neg he, if_neg he, ih]

lemma poolPlates_nodup (df : DataFrame ℚ) : (poolPlates df).Nodup :=
  uniqueFirst_nodup _

lemma rows_crossPlateApply (df : DataFrame ℚ) (fam : CohortFamily) :
    (crossPlateApply df fam).rows = df.rows.map
      (fun r => (poolPlates df).foldl (fun r pl => correctRow df fam pl r) r) :=
  foldl_map_rows (poolPlates df) (correctRow df fam) df.rows

end CrossPlateLemmas

/-- C2.  For every p180 cohort table, cross-plate correction
(`qc.metabolites.cross_plate_correction`) succeeds, and for each analyte and
each plate carrying at least one pool row (identifier 999999): a
genuine-participant row (identifier < 99999) on that plate ends up holding
`raw_value / (plate pool mean / global pool mean)`, while every pool row is
returned bit-identical to its input. -/
theorem cross_plate_correction_spec (df : DataFrame ℚ) (fam : CohortFamily)
    (i : Nat) (r : Row ℚ) (name : String) (v pm gm : ℚ)
    (hget : df.rows[i]? = some r) (hrid : r.rid < 99999)
    (hplate : r.plate ∈ poolPlates df) (hname : name ∈ metaboNames df fam)
    (hval : r.cellOf name = some v)
    (hpm : plateMean df r.plate name = some pm)
    (hgm : globalPoolMean df name = some gm) :
    cross_plate_correction df fam Platform.p180 =
        Except.ok (crossPlateApply df fam) ∧
      ((crossPlateApply df fam).rows[i]?).map (fun r' => r'.cellOf name) =
        some (some (v / (pm / gm))) ∧
      ∀ (j : Nat) (r' : Row ℚ), df.rows[j]? = some r' → r'.rid = 999999 →
        (crossPlateApply df fam).rows[j]? = some r' := by
  have hpoolne : ¬(poolRows df).isEmpty := by
    have hx := (mem_uniqueFirst _ _).mp hplate
    rcases List.mem_map.mp hx with ⟨q, hq, -⟩
    intro hemp
    rw [List.isEmpty_iff.mp hemp] at hq
    exact List.not_mem_nil q hq
  refine ⟨?_, ?_, ?_⟩
  · rw [cross_plate_correction]
    rw [if_neg (by simpa using hpoolne)]
  · rw [rows_crossPlateApply, List.getElem?_map, hget]
    rw [Option.map_some', Option.map_some']
    congr 1
    rw [foldl_correctRow_mem df fam (poolPlates df) (poolPlates_nodup df) r
      hrid hplate]
    have hlk : r.cells.lookup name = some (some v) := by
      have := hval
      rw [Row.cellOf] at this
      cases hc : r.cells.lookup name with
      | none => rw [hc] at this; cases this
      | some o =>
        rw [hc] at this
        cases o with
        | none => cases this
        | some w => rw [Option.join] at this; cases this; rfl
    rw [Row.cellOf, applyCorrCells]
    rw [lookup_map_entry r.cells
      (fun k vv => if k ∈ metaboNames df fam then divOpt vv (corrFor df r.plate k)
                   else vv) name]
    rw [hlk, Option.map_some', Option.join]
    rw [if_pos hname, corrFor, hpm, hgm]
    rfl
  · intro j r' hj hpool
    rw [rows_crossPlateApply, List.getElem?_map, hj, Option.map_some']
    congr 1
    apply foldl_correctRow_not_participant
    rw [hpool]
    decide

/-- Concrete p180 table for the cross-plate witnesses: two pool rows on
plates 1 and 2 (analyte values 2 and 4, global mean 3), one participant on
plate 1 with value 4. -/
def dfPlates : DataFrame ℚ :=
  { cols := ["c0", "c1", "c2", "c3", "c4", "c5", "c6", "A", "z"],
    rows := [{ rid := 999999, plate := 1, cells := [("A", some 2)] },
             { rid := 999999, plate := 2, cells := [("A", some 4)] },
             { rid := 7, plate := 1, cells := [("A", some 4)] }] }

/-- Witness for C2: on `dfPlates`, the participant on plate 1 ends at
`4 / (2 / 3) = 6`, and the first pool row is returned unchanged. -/
theorem cross_plate_correction_spec_witness :
    cross_plate_correction dfPlates CohortFamily.adni1 Platform.p180 =
        Except.ok (crossPlateApply dfPlates CohortFamily.adni1) ∧
      ((crossPlateApply dfPlates CohortFamily.adni1).rows[2]?).map
          (fun r' => r'.cellOf "A") = some (some ((4 : ℚ) / (2 / 3))) ∧
      ∀ (j : Nat) (r' : Row ℚ), dfPlates.rows[j]? = some r' → r'.rid = 999999 →
        (crossPlateApply dfPlates CohortFamily.adni1).rows[j]? = some r' := by
  have h2 : plateMean dfPlates 1 "A" = some 2 := by
    rw [plateMean]
    norm_num [dfPlates, poolRows, Row.cellOf, meanOpt, List.filterMap]
  have h3 : globalPoolMean dfPlates "A" = some 3 := by
    rw [globalPoolMean]
    norm_num [dfPlates, poolRows, Row.cellOf, meanOpt, List.filterMap]
  exact cross_plate_correction_spec dfPlates CohortFamily.adni1 2
    { rid := 7, plate := 1, cells := [("A", some 4)] } "A" 4 2 3
    (by decide) (by decide) (by decide) (by decide) (by decide) h2 h3

/-- Concrete p180 table whose only participant row sits on plate 2, a plate
with no pool rows (both pool rows are on plate 1). -/
def dfNoPoolPlate : DataFrame ℚ :=
  { cols := ["c0", "c1", "c2", "c3", "c4", "c5", "c6", "A", "z"],
    rows := [{ rid := 999999, plate := 1, cells := [("A", some 2)] },
             { rid := 999999, plate := 1, cells := [("A", some 4)] },
             { rid := 1, plate := 2, cells := [("A", some 10)] }] }

/-- Counterexample to C3: on `dfNoPoolPlate` the participant row's plate 2
has zero pool rows, yet `cross_plate_correction` raises no error — it
returns successfully and leaves the row bit-identical (a silent skip). -/
theorem cross_plate_correction_no_error_counterexample :
    cross_plate_correction dfNoPoolPlate CohortFamily.adni1 Platform.p180 =
        Except.ok (crossPlateApply dfNoPoolPlate CohortFamily.adni1) ∧
      (crossPlateApply dfNoPoolPlate CohortFamily.adni1).rows[2]? =
        some { rid := 1, plate := 2, cells := [("A", some 10)] } ∧
      ∀ e : String,
        cross_plate_correction dfNoPoolPlate CohortFamily.adni1 Platform.p180 ≠
          Except.error e := by
  have h1 : cross_plate_correction dfNoPoolPlate CohortFamily.adni1
      Platform.p180 =
      Except.ok (crossPlateApply dfNoPoolPlate CohortFamily.adni1) := rfl
  refine ⟨h1, rfl, ?_⟩
  intro e h
  rw [h1] at h
  exact Except.noConfusion h

/-- C3 (amended).  If a genuine-participant row's plate has no pool rows
while the cohort has at least one pool row elsewhere, cross-plate correction
does not raise: it returns successfully and leaves that row bit-identical
(the plate loop only visits plates of pool rows).  Only a table with no pool
row at all fails, through the `dat.loc[999999, ]` label lookup. -/
theorem cross_plate_correction_poolless_plate_silent (df : DataFrame ℚ)
    (fam : CohortFamily) (i : Nat) (r : Row ℚ)
    (hget : df.rows[i]? = some r) (hrid : r.rid < 99999)
    (hnoplate : r.plate ∉ poolPlates df) (hpool : poolRows df ≠ []) :
    cross_plate_correction df fam Platform.p180 =
        Except.ok (crossPlateApply df fam) ∧
      (crossPlateApply df fam).rows[i]? = some r := by
  refine ⟨?_, ?_⟩
  · rw [cross_plate_correction,
      if_neg (by simpa [List.isEmpty_iff] using hpool)]
  · rw [rows_crossPlateApply, List.getElem?_map, hget, Option.map_some']
    congr 1
    exact foldl_correctRow_not_mem df fam _ r hnoplate

/-- Witness for the amended C3 on `dfNoPoolPlate`: applying the theorem to
the plate-2 participant row. -/
theorem cross_plate_correction_poolless_plate_silent_witness :
    cross_plate_correction dfNoPoolPlate CohortFamily.adni1 Platform.p180 =
        Except.ok (crossPlateApply dfNoPoolPlate CohortFamily.adni1) ∧
      (crossPlateApply dfNoPoolPlate CohortFamily.adni1).rows[2]? =
        some { rid := 1, plate := 2, cells := [("A", some 10)] } :=
  cross_plate_correction_poolless_plate_silent dfNoPoolPlate
    CohortFamily.adni1 2 { rid := 1, plate := 2, cells := [("A", some 10)] }
    (by decide) (by decide) (by decide) (by decide)

/-- Number of rows carrying identifier `j` (`dat.index == j` count). -/
def countRid (rows : List (Row ℚ)) (j : Int) : Nat :=
  rows.countP (fun r => decide (r.rid = j))

/-- `dat.index[dat.index.duplicated()].unique()`: the identifiers appearing
more than once among the platform-eligible rows (first-occurrence order; the
source lists them in order of second occurrence — same set, both
duplicate-free, and the consolidation result does not depend on the order
because distinct groups are disjoint). -/
def dupIds (df : DataFrame ℚ) (p : Platform) : List Int :=
  uniqueFirst (((eligRows df p).map (fun r => r.rid)).filter
    (fun j => decide (2 ≤ countRid (eligRows df p) j)))

/-- `dat.loc[j].mean()` for one analyte: skipna mean over the group's
eligible rows (missing values ignored; all-missing propagates to missing). -/
def consolidatedCell (df : DataFrame ℚ) (p : Platform) (j : Int)
    (name : String) : Option ℚ :=
  meanOpt (((eligRows df p).filter (fun r => decide (r.rid = j))).map
    (fun r => r.cellOf name))

/-- `dat_dict[key].loc[j, other_cols].iloc[0, ]`: the group's first row in
the full table (groups are nonempty wherever this is used). -/
def firstRowOf (df : DataFrame ℚ) (j : Int) : Row ℚ :=
  (df.rows.filter (fun r => decide (r.rid = j))).headI

/-- `new_row = pd.concat([first_row, consolidated])[dat_dict[key].columns]`:
one consolidated row, indexed `j`, analyte columns holding the group mean and
every other column (incl. the plate barcode) holding the first row's value. -/
def consolidatedRow (df : DataFrame ℚ) (fam : CohortFamily) (p : Platform)
    (j : Int) : Row ℚ :=
  { rid := j,
    plate := (firstRowOf df j).plate,
    cells := df.cols.map (fun n =>
      (n, if n ∈ metaboNames df fam then consolidatedCell df p j n
          else (firstRowOf df j).cellOf n)) }

/-- One iteration of the consolidation loop:
`dat_dict[key].drop(j, axis='index'); dat_dict[key].loc[j] = new_row` —
remove every row labelled `j`, append the consolidated row at the end.  The
group statistics are read from the pre-loop table (the loop never disturbs a
still-unprocessed group, since distinct identifiers have disjoint rows). -/
def consolidateStep (df : DataFrame ℚ) (fam : CohortFamily) (p : Platform)
    (rows : List (Row ℚ)) (j : Int) : List (Row ℚ) :=
  rows.filter (fun r => decide (r.rid ≠ j)) ++ [consolidatedRow df fam p j]

/-- `DataFrame.sort_index()`: order rows by ascending identifier. -/
def sortByRid (rows : List (Row ℚ)) : List (Row ℚ) :=
  rows.mergeSort (fun a b => decide (a.rid ≤ b.rid))

/-- `qc.participants.consolidate_replicates`, one cohort table: consolidate
every duplicated eligible identifier, drop the nmr artifact column `'bl'`
when present, and re-sort by identifier. -/
def consolidate_replicates_table (df : DataFrame ℚ) (fam : CohortFamily)
    (p : Platform) : DataFrame ℚ :=
  let df2 : DataFrame ℚ :=
    { cols := df.cols,
      rows := (dupIds df p).foldl (consolidateStep df fam p) df.rows }
  let df3 := if "bl" ∈ df2.cols then dropCols df2 ["bl"] else df2
  { df3 with rows := sortByRid df3.rows }

section ConsolidateLemmas

lemma rid_consolidatedRow (df : DataFrame ℚ) (fam : CohortFamily)
    (p : Platform) (j : Int) : (consolidatedRow df fam p j).rid = j := rfl

lemma countRid_le_length (rows : List (Row ℚ)) (j : Int) :
    countRid rows j ≤ rows.length :=
  List.countP_le_length _

lemma countRid_cons (r : Row ℚ) (tl : List (Row ℚ)) (j : Int) :
    countRid (r :: tl) j = countRid tl j + if r.rid = j then 1 else 0 := by
  rw [countRid, List.countP_cons, ← countRid]
  congr 1
  by_cases h : r.rid = j <;> simp [h]

lemma length_filter_ne (rows : List (Row ℚ)) (j : Int) :
    (rows.filter (fun r => decide (r.rid ≠ j))).length =
      rows.length - countRid rows j := by
  induction rows with
  | nil => rfl
  | cons r tl ih =>
    have hle := countRid_le_length tl j
    by_cases he : r.rid = j
    · rw [List.filter_cons, if_neg (by simp [he]), ih, countRid_cons, if_pos he]
      simp only [List.length_cons]
      omega
    · rw [List.filter_cons, if_pos (by simp [he])]
      simp only [List.length_cons]
      rw [ih, countRid_cons, if_neg he]
      omega

lemma countRid_filter_ne (rows : List (Row ℚ)) (hd j : Int) (hne : j ≠ hd) :
    countRid (rows.filter (fun r => decide (r.rid ≠ hd))) j =
      countRid rows j := by
  induction rows with
  | nil => rfl
  | cons r tl ih =>
    by_cases he : r.rid = hd
    · rw [List.filter_cons, if_neg (by simp [he]), ih, countRid_cons,
        if_neg (fun h => hne (h.symm.trans he))]
      omega
    · rw [List.filter_cons, if_pos (by simp [he]), countRid_cons, ih,
        countRid_cons]

lemma countRid_consolidateStep (df : DataFrame ℚ) (fam : CohortFamily)
    (p : Platform) (acc : List (Row ℚ)) (hd j : Int) (hne : j ≠ hd) :
    countRid (consolidateStep df fam p acc hd) j = countRid acc j := by
  rw [consolidateStep, countRid, List.countP_append, ← countRid, ← countRid,
    countRid_filter_ne acc hd j hne]
  have h0 : countRid [consolidatedRow df fam p hd] j = 0 := by
    rw [countRid_cons,
      if_neg (fun h => hne (h.symm.trans (rid_consolidatedRow df fam p hd)))]
    rfl
  rw [h0]
  omega

lemma foldl_consolidate_filter_not_mem (df : DataFrame ℚ)
    (fam : CohortFamily) (p : Platform) (js : List Int) (j : Int)
    (hj : j ∉ js) (acc : List (Row ℚ)) :
    ((js.foldl (consolidateStep df fam p) acc).filter
        (fun r => decide (r.rid = j))) =
      acc.filter (fun r => decide (r.rid = j)) := by
  induction js generalizing acc with
  | nil => rfl
  | cons hd tl ih =>
    have hne : j ≠ hd := fun e => hj (by simp [e])
    simp only [List.foldl_cons]
    rw [ih (fun hm => hj (List.mem_cons_of_mem _ hm))]
    rw [consolidateStep, List.filter_append, List.filter_filter]
    have h1 : List.filter
        (fun r => decide (r.rid = j) && decide (r.rid ≠ hd)) acc =
        List.filter (fun r => decide (r.rid = j)) acc := by
      apply List.filter_congr
      intro r _
      by_cases he : r.rid = j
      · simp [he, hne]
      · simp [he]
    have h2 : List.filter (fun r => decide (r.rid = j))
        [consolidatedRow df fam p hd] = [] := by
      rw [List.filter_cons,
        if_neg (by
          simp only [decide_eq_true_eq, rid_consolidatedRow]
          exact fun h => hne h.symm)]
      rfl
    rw [h1, h2, List.append_nil]

lemma foldl_consolidate_filter_mem (df : DataFrame ℚ) (fam : CohortFamily)
    (p : Platform) (js : List Int) (hnd : js.Nodup) (j : Int) (hj : j ∈ js)
    (acc : List (Row ℚ)) :
    ((js.foldl (consolidateStep df fam p) acc).filter
        (fun r => decide (r.rid = j))) = [consolidatedRow df fam p j] := by
  induction js generalizing acc with
  | nil => cases hj
  | cons hd tl ih =>
    simp only [List.foldl_cons]
    rcases List.mem_cons.mp hj with rfl | hmem
    · have hnotin : j ∉ tl := (List.nodup_cons.mp hnd).1
      rw [foldl_consolidate_filter_not_mem df fam p tl j hnotin]
      rw [consolidateStep, List.filter_append, List.filter_filter]
      have h1 : List.filter
          (fun r => decide (r.rid = j) && decide (r.rid ≠ j)) acc = [] := by
        apply List.filter_eq_nil_iff.mpr
        intro r _
        simp
      have h2 : List.filter (fun r => decide (r.rid = j))
          [consolidatedRow df fam p j] = [consolidatedRow df fam p j] := by
        rw [List.filter_cons, if_pos (by simp [rid_consolidatedRow])]
        rfl
      rw [h1, h2, List.nil_append]
    · exact ih (List.nodup_cons.mp hnd).2 hmem _

lemma foldl_consolidate_length (df : DataFrame ℚ) (fam : CohortFamily)
    (p : Platform) (js : List Int) (hnd : js.Nodup) (acc : List (Row ℚ)) :
    (js.foldl (consolidateStep df fam p) acc).length +
        (js.map (fun j => countRid acc j)).sum =
      acc.length + js.length := by
  induction js generalizing acc with
  | nil => simp
  | cons hd tl ih =>
    simp only [List.foldl_cons, List.map_cons, List.sum_cons, List.length_cons]
    have hstep : (consolidateStep df fam p acc hd).length =
        acc.length - countRid acc hd + 1 := by
      rw [consolidateStep, List.length_append, length_filter_ne]
      rfl
    have hcounts : tl.map (fun j => countRid acc j) =
        tl.map (fun j => countRid (consolidateStep df fam p acc hd) j) := by
      apply List.map_congr_left
      intro j hjtl
      have hne : j ≠ hd := by
        rintro rfl
        exact (List.nodup_cons.mp hnd).1 hjtl
      rw [countRid_consolidateStep df fam p acc hd j hne]
    have hih := ih (List.nodup_cons.mp hnd).2 (consolidateStep df fam p acc hd)
    have hle := countRid_le_length acc hd
    rw [hcounts]
    omega

lemma lookup_map_self {β : Type} (cols : List String) (g : String → β)
    (n : String) :
    (cols.map (fun c => (c, g c))).lookup n =
      if n ∈ cols then some (g n) else none := by
  induction cols with
  | nil => rfl
  | cons c tl ih =>
    simp only [List.map_cons]
    rw [lookup_cons]
    by_cases he : n = c
    · subst he
      rw [if_pos rfl, if_pos (List.mem_cons_self n tl)]
    · rw [if_neg he, ih]
      by_cases hm : n ∈ tl
      · rw [if_pos hm, if_pos (List.mem_cons_of_mem c hm)]
      · rw [if_neg hm, if_neg (by simp [he, hm])]

lemma metaboNames_subset_cols (df : DataFrame α) (fam : CohortFamily) :
    metaboNames df fam ⊆ df.cols := by
  cases fam
  case unknownFam => intro x hx; cases hx
  all_goals
    intro x hx
    exact List.take_subset _ _ (List.drop_subset _ _ hx)

end ConsolidateLemmas

/-- C4.  For every cohort table, replicate consolidation
(`qc.participants.consolidate_replicates`) replaces each group of rows
sharing a duplicated eligible identifier with the single consolidated row:
its analyte cells are the per-analyte skipna mean over the group, its other
cells (and the plate barcode) come from the group's first row, the row count
drops by exactly `duplicate_count - 1` per duplicated identifier (stated
additively), and the resulting table is sorted by identifier ascending.
(Hypothesis: the table does not already carry the nmr artifact column `'bl'`,
which the source deletes as a side effect.) -/
theorem consolidate_replicates_spec (df : DataFrame ℚ) (fam : CohortFamily)
    (p : Platform) (hbl : "bl" ∉ df.cols) :
    (∀ j ∈ dupIds df p,
        (consolidate_replicates_table df fam p).rows.filter
            (fun r => decide (r.rid = j)) = [consolidatedRow df fam p j]) ∧
      (∀ j ∈ dupIds df p, ∀ name ∈ metaboNames df fam,
        (consolidatedRow df fam p j).cellOf name = consolidatedCell df p j name) ∧
      (∀ j ∈ dupIds df p, ∀ name ∈ df.cols, name ∉ metaboNames df fam →
        (consolidatedRow df fam p j).cellOf name = (firstRowOf df j).cellOf name) ∧
      (consolidate_replicates_table df fam p).rows.length +
          ((dupIds df p).map (fun j => countRid df.rows j)).sum =
        df.rows.length + (dupIds df p).length ∧
      List.Pairwise (fun a b : Row ℚ => a.rid ≤ b.rid)
        (consolidate_replicates_table df fam p).rows := by
  have hrows : (consolidate_replicates_table df fam p).rows =
      sortByRid ((dupIds df p).foldl (consolidateStep df fam p) df.rows) := by
    rw [consolidate_replicates_table]
    simp only [if_neg hbl]
  have hperm : (consolidate_replicates_table df fam p).rows.Perm
      ((dupIds df p).foldl (consolidateStep df fam p) df.rows) := by
    rw [hrows]
    exact List.mergeSort_perm _ _
  refine ⟨?_, ?_, ?_, ?_, ?_⟩
  · intro j hj
    have h1 := foldl_consolidate_filter_mem df fam p (dupIds df p)
      (uniqueFirst_nodup _) j hj df.rows
    have h2 := hperm.filter (fun r => decide (r.rid = j))
    rw [h1] at h2
    exact List.perm_singleton.mp h2
  · intro j hj name hname
    rw [consolidatedRow, Row.cellOf, lookup_map_self,
      if_pos (metaboNames_subset_cols df fam hname), if_pos hname]
    rfl
  · intro j hj name hname hnot
    rw [consolidatedRow, Row.cellOf, lookup_map_self, if_pos hname,
      if_neg hnot]
    cases hc : (firstRowOf df j).cellOf name with
    | none => rfl
    | some w => rfl
  · have hlen := foldl_consolidate_length df fam p (dupIds df p)
      (uniqueFirst_nodup _) df.rows
    have hslen : (consolidate_replicates_table df fam p).rows.length =
        ((dupIds df p).foldl (consolidateStep df fam p) df.rows).length :=
      hperm.length_eq
    omega
  · rw [hrows, sortByRid]
    have hsorted := @List.sorted_mergeSort (Row ℚ)
      (fun a b => decide (a.rid ≤ b.rid))
      (fun a b c hab hbc => by
        simp only [decide_eq_true_eq] at hab hbc ⊢
        exact le_trans hab hbc)
      (fun a b => by
        simp only [Bool.or_eq_true, decide_eq_true_eq]
        exact le_total a.rid b.rid)
      ((dupIds df p).foldl (consolidateStep df fam p) df.rows)
    exact hsorted.imp (fun h => by simpa using h)

/-- Concrete ADNI1 table for the C4 witness: participant 5 appears three
times with analyte values 2, 4, 6; participant 3 appears once. -/
def dfTriplicate : DataFrame ℚ :=
  { cols := ["c0", "c1", "c2", "c3", "c4", "c5", "c6", "A", "z"],
    rows := [{ rid := 5, plate := 1, cells := [("A", some 2)] },
             { rid := 3, plate := 1, cells := [("A", some 7)] },
             { rid := 5, plate := 2, cells := [("A", some 4)] },
             { rid := 5, plate := 3, cells := [("A", some 6)] }] }

/-- Witness for C4 on `dfTriplicate`: the triplicated participant 5
collapses to one row whose analyte value is the mean 4, metadata comes from
the first row (plate 1), the row count drops from 4 to 2, and the result is
sorted. -/
theorem consolidate_replicates_spec_witness :
    ("bl" ∉ dfTriplicate.cols) ∧
      ((consolidate_replicates_table dfTriplicate CohortFamily.adni1
          Platform.p180).rows.filter (fun r => decide (r.rid = 5)) =
        [consolidatedRow dfTriplicate CohortFamily.adni1 Platform.p180 5]) ∧
      consolidatedCell dfTriplicate Platform.p180 5 "A" = some 4 ∧
      (consolidate_replicates_table dfTriplicate CohortFamily.adni1
          Platform.p180).rows.length +
          ((dupIds dfTriplicate Platform.p180).map
            (fun j => countRid dfTriplicate.rows j)).sum =
        dfTriplicate.rows.length +
          (dupIds dfTriplicate Platform.p180).length := by
  have hbl : "bl" ∉ dfTriplicate.cols := by decide
  have h := consolidate_replicates_spec dfTriplicate CohortFamily.adni1
    Platform.p180 hbl
  refine ⟨hbl, h.1 5 (by decide), ?_, h.2.2.2.1⟩
  rw [consolidatedCell]
  have hval : (((eligRows dfTriplicate Platform.p180).filter
      (fun r => decide (r.rid = 5))).map (fun r => r.cellOf "A")) =
      [some 2, some 4, some 6] := by decide
  rw [hval, meanOpt]
  norm_num [List.filterMap]

/-- A p180 limit-of-detection file (`load.read_lod_files` output): one
record per plate barcode with per-analyte LOD values. -/
structure LodTable where
  recs : List (Nat × List (String × ℚ))

/-- `lod_files[key].loc[met_lod, j]`: the LOD values of analyte `name` on
every record whose `Plate.Bar.Code` equals `bar`. -/
def lodVals (lod : LodTable) (bar : Nat) (name : String) : List ℚ :=
  (lod.recs.filter (fun e => decide (e.1 = bar))).filterMap
    (fun e => e.2.lookup name)

/-- `np.mean` of a flat list: NaN (none) on the empty list. -/
def npMean (xs : List ℚ) : Option ℚ :=
  if xs.isEmpty then none else some (xs.sum / (xs.length : ℚ))

/-- skipna minimum (`Series.min()`): NaN when nothing is observed. -/
def minOpt (xs : List (Option ℚ)) : Option ℚ :=
  (xs.filterMap id).min?

/-- `mets_to_impute = dat.columns[dat.isna().any()]`: the analytes with at
least one missing value among the eligible rows. -/
def metsToImpute (df : DataFrame ℚ) (fam : CohortFamily) (p : Platform) :
    List String :=
  (metaboNames df fam).filter (fun n =>
    (eligRows df p).any (fun r => (r.cellOf n).isNone))

/-- The eligible rows on which analyte `n` is missing
(`dat.loc[dat[j].isna()]`). -/
def missingRowsOf (df : DataFrame ℚ) (p : Platform) (n : String) :
    List (Row ℚ) :=
  (eligRows df p).filter (fun r => (r.cellOf n).isNone)

/-- `indices = dat.loc[dat[j].isna()].index`: the index labels of the
missing rows. -/
def missingRids (df : DataFrame ℚ) (p : Platform) (n : String) : List Int :=
  (missingRowsOf df p n).map (fun r => r.rid)

/-- The scalar written into every missing cell of analyte `n`
(`qc.transformations.imputation`).  With the p180 platform and an LOD
directory the source computes `np.mean(vals) * 0.5` where `vals` collects,
for each missing row, the LOD records matching that row's plate; `np.mean`
flattens the collection, so the result is ONE scalar per analyte (half the
mean over all missing rows' matched LOD values), not a per-row value.
Otherwise it is half the minimum observed value (`dat.loc[:, j].min() / 2`).
All statistics are computed from the pre-loop table. -/
def imputeVal (df : DataFrame ℚ) (p : Platform) (lod : Option LodTable)
    (n : String) : Option ℚ :=
  match p, lod with
  | Platform.p180, some L =>
      (npMean (((missingRowsOf df Platform.p180 n).map
        (fun r => lodVals L r.plate n)).flatten)).map (fun m => m * (1 / 2))
  | _, _ =>
      (minOpt ((eligRows df p).map (fun r => r.cellOf n))).map (fun m => m / 2)

/-- `dat_dict[key].loc[indices, j] = scalar`: label-based assignment — every
row whose identifier occurs among the missing-row labels gets column `j` set
to the scalar (each such label belongs to eligible rows only, since
eligibility is a function of the identifier). -/
def setCellByRid (rids : List Int) (n : String) (v : Option ℚ) (r : Row ℚ) :
    Row ℚ :=
  if r.rid ∈ rids then
    { r with cells := r.cells.map (fun pr =>
        (pr.1, if pr.1 = n then v else pr.2)) }
  else r

/-- `qc.transformations.imputation`, one cohort table: for each analyte with
missing eligible values, write the analyte's imputation scalar into all its
missing rows. -/
def imputation_table (df : DataFrame ℚ) (fam : CohortFamily) (p : Platform)
    (lod : Option LodTable) : DataFrame ℚ :=
  { df with
    rows := (metsToImpute df fam p).foldl
      (fun rows n => rows.map (setCellByRid (missingRids df p n) n
        (imputeVal df p lod n))) df.rows }

section ImputationLemmas

lemma rid_setCellByRid (rids : List Int) (n : String) (v : Option ℚ)
    (r : Row ℚ) : (setCellByRid rids n v r).rid = r.rid := by
  rw [setCellByRid]
  split <;> rfl

lemma lookup_setCellByRid_ne (rids : List Int) (n n' : String)
    (v : Option ℚ) (r : Row ℚ) (hne : n ≠ n') :
    (setCellByRid rids n' v r).cells.lookup n = r.cells.lookup n := by
  rw [setCellByRid]
  split
  · show (r.cells.map (fun pr => (pr.1, if pr.1 = n' then v else pr.2))).lookup n = _
    rw [lookup_map_entry r.cells (fun k c => if k = n' then v else c) n]
    cases hc : r.cells.lookup n with
    | none => rfl
    | some c =>
      rw [Option.map_some']
      rw [if_neg hne]
  · rfl

lemma lookup_setCellByRid_hit (rids : List Int) (n : String) (v : Option ℚ)
    (r : Row ℚ) (hr : r.rid ∈ rids) :
    (setCellByRid rids n v r).cells.lookup n =
      (r.cells.lookup n).map (fun _ => v) := by
  rw [setCellByRid, if_pos hr]
  show (r.cells.map (fun pr => (pr.1, if pr.1 = n then v else pr.2))).lookup n = _
  rw [lookup_map_entry r.cells (fun k c => if k = n then v else c) n]
  cases hc : r.cells.lookup n with
  | none => rfl
  | some c =>
    rw [Option.map_some', Option.map_some', if_pos rfl]

lemma foldl_setCell_skip (df : DataFrame ℚ) (p : Platform)
    (lod : Option LodTable) (mets : List String) (n : String) (hn : n ∉ mets)
    (r : Row ℚ) :
    (mets.foldl (fun r' n' => setCellByRid (missingRids df p n') n'
        (imputeVal df p lod n') r') r).cells.lookup n = r.cells.lookup n := by
  induction mets generalizing r with
  | nil => rfl
  | cons hd tl ih =>
    have hne : n ≠ hd := fun e => hn (by simp [e])
    simp only [List.foldl_cons]
    rw [ih (fun hm => hn (List.mem_cons_of_mem _ hm)),
      lookup_setCellByRid_ne _ _ _ _ _ hne]

lemma foldl_setCell_result (df : DataFrame ℚ) (p : Platform)
    (lod : Option LodTable) (mets : List String) (hnd : mets.Nodup)
    (n : String) (hmem : n ∈ mets) (r : Row ℚ)
    (hr : r.rid ∈ missingRids df p n) :
    (mets.foldl (fun r' n' => setCellByRid (missingRids df p n') n'
        (imputeVal df p lod n') r') r).cells.lookup n =
      (r.cells.lookup n).map (fun _ => imputeVal df p lod n) := by
  induction mets generalizing r with
  | nil => cases hmem
  | cons hd tl ih =>
    simp only [List.foldl_cons]
    rcases List.mem_cons.mp hmem with rfl | hmem'
    · rw [foldl_setCell_skip df p lod tl n (List.nodup_cons.mp hnd).1,
        lookup_setCellByRid_hit _ _ _ _ hr]
    · have hne : n ≠ hd := by
        rintro rfl
        exact (List.nodup_cons.mp hnd).1 hmem'
      rw [ih (List.nodup_cons.mp hnd).2 hmem'
          (setCellByRid (missingRids df p hd) hd (imputeVal df p lod hd) r)
          (by rw [rid_setCellByRid]; exact hr),
        lookup_setCellByRid_ne _ _ _ _ _ hne]

lemma rows_imputation_table (df : DataFrame ℚ) (fam : CohortFamily)
    (p : Platform) (lod : Option LodTable) :
    (imputation_table df fam p lod).rows = df.rows.map
      (fun r => (metsToImpute df fam p).foldl
        (fun r' n' => setCellByRid (missingRids df p n') n'
          (imputeVal df p lod n') r') r) :=
  foldl_map_rows (metsToImpute df fam p) _ df.rows

lemma metaboNames_nodup (df : DataFrame ℚ) (fam : CohortFamily)
    (hnd : df.cols.Nodup) : (metaboNames df fam).Nodup := by
  cases fam
  case unknownFam => exact List.nodup_nil
  all_goals
    exact ((hnd.sublist (List.take_sublist _ _)).sublist
      (List.drop_sublist _ _))

end ImputationLemmas

/-- Concrete p180 table with the analyte `"A"` missing on two rows lying on
plates with different LOD values (plate 1: LOD 10, plate 2: LOD 30). -/
def dfImpute : DataFrame ℚ :=
  { cols := ["c0", "c1", "c2", "c3", "c4", "c5", "c6", "A", "z"],
    rows := [{ rid := 1, plate := 1, cells := [("A", none)] },
             { rid := 2, plate := 2, cells := [("A", none)] }] }

/-- LOD records for `dfImpute`: one per plate. -/
def lodImpute : LodTable :=
  { recs := [(1, [("A", 10)]), (2, [("A", 30)])] }

/-- Counterexample to C5: with per-plate LODs 10 and 30, LOD imputation
writes the SAME value `(10 + 30)/2 * 0.5 = 10` into both missing cells;
the per-row rule of the claim would give `10/2 = 5` on plate 1 and
`30/2 = 15` on plate 2, i.e. different values. -/
theorem imputation_lod_counterexample :
    ((imputation_table dfImpute CohortFamily.adni1 Platform.p180
        (some lodImpute)).rows.map (fun r => r.cellOf "A")) =
        [some 10, some 10] ∧
      (npMean (lodVals lodImpute 1 "A")).map (fun m => m * (1 / 2)) =
        some 5 ∧
      (npMean (lodVals lodImpute 2 "A")).map (fun m => m * (1 / 2)) =
        some 15 ∧
      ((10 : ℚ) ≠ 5 ∧ (10 : ℚ) ≠ 15) := by
  have hval : imputeVal dfImpute Platform.p180 (some lodImpute) "A" =
      some 10 := by
    have h0 : imputeVal dfImpute Platform.p180 (some lodImpute) "A" =
        (npMean (((missingRowsOf dfImpute Platform.p180 "A").map
          (fun r => lodVals lodImpute r.plate "A")).flatten)).map
          (fun m => m * (1 / 2)) := rfl
    have h1 : ((missingRowsOf dfImpute Platform.p180 "A").map
        (fun r => lodVals lodImpute r.plate "A")).flatten = [10, 30] := by
      decide
    rw [h0, h1, npMean]
    norm_num
  refine ⟨?_, ?_, ?_, by norm_num⟩
  · have hmets : metsToImpute dfImpute CohortFamily.adni1 Platform.p180 =
        ["A"] := by decide
    have hrids : missingRids dfImpute Platform.p180 "A" = [1, 2] := by decide
    rw [rows_imputation_table, hmets]
    simp only [List.foldl_cons, List.foldl_nil]
    simp only [hrids, hval]
    decide
  · rw [npMean]
    have h : lodVals lodImpute 1 "A" = [10] := by decide
    rw [h]
    norm_num
  · rw [npMean]
    have h : lodVals lodImpute 2 "A" = [30] := by decide
    rw [h]
    norm_num

/-- C5 (amended).  When imputation runs on the p180 platform with an LOD
table supplied, every missing cell of an analyte receives one and the same
scalar: half of the mean of the concatenation, over all of that analyte's
missing rows, of the LOD records matching each row's plate
(`np.mean(vals) * 0.5` collapses the per-row lookups into one number).  In
particular two missing cells of the same analyte on plates with different
LOD values receive the same imputed value, not different ones. -/
theorem imputation_lod_common_value (df : DataFrame ℚ) (fam : CohortFamily)
    (lod : LodTable) (i : Nat) (r : Row ℚ) (n : String)
    (hnd : df.cols.Nodup) (hget : df.rows[i]? = some r)
    (helig : eligibleRow Platform.p180 r = true)
    (hn : n ∈ metaboNames df fam) (hmiss : r.cells.lookup n = some none) :
    ((imputation_table df fam Platform.p180 (some lod)).rows[i]?).map
        (fun r' => r'.cellOf n) =
      some (imputeVal df Platform.p180 (some lod) n) := by
  have hcell : r.cellOf n = none := by
    rw [Row.cellOf, hmiss]
    rfl
  have hrmem : r ∈ df.rows := List.getElem?_mem hget
  have heligmem : r ∈ eligRows df Platform.p180 :=
    List.mem_filter.mpr ⟨hrmem, helig⟩
  have hmissmem : r ∈ missingRowsOf df Platform.p180 n :=
    List.mem_filter.mpr ⟨heligmem, by rw [hcell]; rfl⟩
  have hr : r.rid ∈ missingRids df Platform.p180 n :=
    List.mem_map_of_mem _ hmissmem
  have hmets : n ∈ metsToImpute df fam Platform.p180 := by
    apply List.mem_filter.mpr
    refine ⟨hn, ?_⟩
    apply List.any_eq_true.mpr
    exact ⟨r, heligmem, by rw [hcell]; rfl⟩
  have hnodup : (metsToImpute df fam Platform.p180).Nodup :=
    (metaboNames_nodup df fam hnd).filter _
  rw [rows_imputation_table, List.getElem?_map, hget, Option.map_some',
    Option.map_some']
  congr 1
  rw [Row.cellOf,
    foldl_setCell_result df Platform.p180 (some lod) _ hnodup n hmets r hr,
    hmiss, Option.map_some']
  rfl

/-- Witness for the amended C5 on `dfImpute`: the plate-1 missing cell
receives the analyte's single shared imputation scalar. -/
theorem imputation_lod_common_value_witness :
    ((imputation_table dfImpute CohortFamily.adni1 Platform.p180
        (some lodImpute)).rows[0]?).map (fun r' => r'.cellOf "A") =
      some (imputeVal dfImpute Platform.p180 (some lodImpute) "A") :=
  imputation_lod_common_value dfImpute CohortFamily.adni1 lodImpute 0
    { rid := 1, plate := 1, cells := [("A", none)] } "A"
    (by decide) (by decide) (by decide) (by decide) (by decide)

/-- Sample standard deviation (`Series.std()`, skipna, ddof = 1): NaN with
fewer than two observed values. -/
noncomputable def stdOpt (xs : List (Option ℝ)) : Option ℝ :=
  let v := xs.filterMap id
  if v.length < 2 then none
  else some (Real.sqrt ((v.map
    (fun x => (x - v.sum / (v.length : ℝ)) ^ 2)).sum / ((v.length : ℝ) - 1)))

/-- `cv = duplicated_dat.std() / duplicated_dat.mean()` for one duplicated
participant and one analyte (values cast to ℝ for the square root). -/
noncomputable def cvValue (df : DataFrame ℚ) (name : String) (j : Int) :
    Option ℝ :=
  let vals := ((eligRows df Platform.p180).filter
    (fun r => decide (r.rid = j))).map
      (fun r => (r.cellOf name).map (fun q => (q : ℝ)))
  divOpt (stdOpt vals) (meanOpt vals)

/-- `cv_interplate = pd.DataFrame(pd.DataFrame(cv_interplate).mean(), ...)`:
the skipna mean of the per-participant CVs of one analyte. -/
noncomputable def cvInterplate (df : DataFrame ℚ) (name : String) : Option ℝ :=
  meanOpt ((dupIds df Platform.p180).map (fun j => cvValue df name j))

open Classical in
/-- The p180 branch of `qc.metabolites.remove_cv`, one cohort table: drop
the analytes whose mean CV strictly exceeds the cutoff (a NaN CV never
exceeds it, as in pandas). -/
noncomputable def remove_cv_table (df : DataFrame ℚ) (fam : CohortFamily)
    (cutoff : ℚ) : DataFrame ℚ :=
  dropCols df ((metaboNames df fam).filter (fun n =>
    decide (∃ c : ℝ, cvInterplate df n = some c ∧ (cutoff : ℝ) < c)))

/-- `qc.metabolites.remove_cv`: platform-gated — any platform other than
p180 raises `'The platform should be p180 only'` before touching a table
(the error result carries no tables, so nothing is modified). -/
noncomputable def remove_cv (dd : List (CohortFamily × DataFrame ℚ))
    (p : Platform) (cutoff : ℚ) :
    Except String (List (CohortFamily × DataFrame ℚ)) :=
  match p with
  | Platform.p180 => .ok (dd.map (fun e => (e.1, remove_cv_table e.2 e.1 cutoff)))
  | Platform.nmr => .error "The platform should be p180 only"

/-- Arithmetic mean of a list of rationals (division by zero is the `ℚ`
convention `x / 0 = 0`; the ICC uses it only through ratio positions whose
degenerate cases no claim touches). -/
def meanQ (xs : List ℚ) : ℚ := xs.sum / (xs.length : ℚ)

/-- `pingouin.intraclass_corr(..., nan_policy='omit').iloc[2, 2]`: the
two-way random-effects, single-rater, absolute-agreement coefficient
ICC(2,1), modelled by the standard two-way ANOVA decomposition on the
targets × raters matrix built from the duplicated participants (raters are
replicate indices in order of appearance; a target with any missing rating
is dropped entirely, which is the `omit` policy). -/
def icc2Value (df : DataFrame ℚ) (name : String) : ℚ :=
  let dup := dupIds df Platform.p180
  let groups := dup.map (fun j =>
    ((eligRows df Platform.p180).filter (fun r => decide (r.rid = j))).map
      (fun r => r.cellOf name))
  let k := (groups.map List.length).foldr max 0
  let padded := groups.map (fun g => g ++ List.replicate (k - g.length) none)
  let complete := padded.filter (fun g => g.all (fun o => o.isSome))
  let mat := complete.map (fun g => g.filterMap id)
  let n := mat.length
  let grand := meanQ mat.flatten
  let rowMeans := mat.map meanQ
  let colMeans := (List.range k).map (fun i =>
    meanQ (mat.map (fun row => row.getD i 0)))
  let msb := (k : ℚ) * ((rowMeans.map (fun m => (m - grand) ^ 2)).sum) /
    ((n : ℚ) - 1)
  let msj := (n : ℚ) * ((colMeans.map (fun m => (m - grand) ^ 2)).sum) /
    ((k : ℚ) - 1)
  let sse := ((List.range n).map (fun i =>
    ((List.range k).map (fun j =>
      ((mat.getD i []).getD j 0 - rowMeans.getD i 0 - colMeans.getD j 0 +
        grand) ^ 2)).sum)).sum
  let mse := sse / (((n : ℚ) - 1) * ((k : ℚ) - 1))
  (msb - mse) / (msb + ((k : ℚ) - 1) * mse + (k : ℚ) * (msj - mse) / (n : ℚ))

/-- The p180 branch of `qc.metabolites.remove_icc`, one cohort table: drop
the analytes whose ICC(2,1) falls strictly below the cutoff. -/
def remove_icc_table (df : DataFrame ℚ) (fam : CohortFamily) (cutoff : ℚ) :
    DataFrame ℚ :=
  dropCols df ((metaboNames df fam).filter (fun n =>
    decide (icc2Value df n < cutoff)))

/-- `qc.metabolites.remove_icc`: platform-gated exactly like `remove_cv`. -/
def remove_icc (dd : List (CohortFamily × DataFrame ℚ)) (p : Platform)
    (cutoff : ℚ) : Except String (List (CohortFamily × DataFrame ℚ)) :=
  match p with
  | Platform.p180 => .ok (dd.map (fun e => (e.1, remove_icc_table e.2 e.1 cutoff)))
  | Platform.nmr => .error "The platform should be p180 only"

/-- C6.  For every input collection and every cutoff, `remove_cv` and
`remove_icc` raise `'The platform should be p180 only'` when invoked with
any platform identifier other than p180 (the loader admits only p180 and
nmr), and the error is raised by the platform gate before any per-cohort
work, so no cohort table is modified — the error result carries none. -/
theorem remove_cv_icc_platform_gate (dd : List (CohortFamily × DataFrame ℚ))
    (cutoff : ℚ) (p : Platform) (hp : p ≠ Platform.p180) :
    remove_cv dd p cutoff =
        Except.error "The platform should be p180 only" ∧
      remove_icc dd p cutoff =
        Except.error "The platform should be p180 only" := by
  cases p
  · exact absurd rfl hp
  · exact ⟨rfl, rfl⟩

/-- Witness for C6 at the nmr platform and cutoff 0. -/
theorem remove_cv_icc_platform_gate_witness :
    remove_cv [] Platform.nmr 0 =
        Except.error "The platform should be p180 only" ∧
      remove_icc [] Platform.nmr 0 =
        Except.error "The platform should be p180 only" :=
  remove_cv_icc_platform_gate [] 0 Platform.nmr (by decide)

/-- Population standard deviation of a column (`np.std(dat)`: ddof = 0,
skipna through the pandas dispatch): NaN when nothing is observed. -/
noncomputable def popStdOpt (xs : List (Option ℝ)) : Option ℝ :=
  let v := xs.filterMap id
  if v.isEmpty then none
  else some (Real.sqrt ((v.map
    (fun x => (x - v.sum / (v.length : ℝ)) ^ 2)).sum / (v.length : ℝ)))

/-- `three_std = np.std(dat) * 3` for one analyte column. -/
noncomputable def threeStd (df : DataFrame ℝ) (p : Platform) (name : String) :
    Option ℝ :=
  (popStdOpt ((eligRows df p).map (fun r => r.cellOf name))).map
    (fun s => s * 3)

open Classical in
/-- One cell of the winsorize pass:
`high = dat[col] > std; low = dat[col] < -std; dat[high] = std;
dat[low] = -std` — both masks are computed before either assignment, a NaN
cell stays NaN, and a NaN threshold caps nothing (NaN comparisons are
False). -/
noncomputable def capCell (t : Option ℝ) (v : Option ℝ) : Option ℝ :=
  match t, v with
  | some t, some x => some (if x > t then t else if x < -t then -t else x)
  | _, vv => vv

/-- Shared shape of the elementwise transforms: apply `f` to the analyte
cells of the eligible rows (`dat = dat_dict[key].loc[indices, metabo_names];
...; dat_dict[key].loc[indices, metabo_names] = dat`), leave everything else
untouched. -/
def transformRow (df : DataFrame ℝ) (fam : CohortFamily) (p : Platform)
    (f : String → Option ℝ → Option ℝ) (r : Row ℝ) : Row ℝ :=
  if eligibleRow p r then
    { r with cells := r.cells.map (fun pr =>
        (pr.1, if pr.1 ∈ metaboNames df fam then f pr.1 pr.2 else pr.2)) }
  else r

/-- `qc.transformations.winsorize`, one cohort table: per analyte column cap
the eligible values at `± 3 · np.std(column)` (thresholds about zero). -/
noncomputable def winsorize_table (df : DataFrame ℝ) (fam : CohortFamily)
    (p : Platform) : DataFrame ℝ :=
  { df with
    rows := df.rows.map
      (transformRow df fam p (fun n v => capCell (threeStd df p n) v)) }

/-- `qc.transformations.log2`, one cohort table:
`log2_dat = np.log2(dat + 1)` — always the `+ 1` offset variant. -/
noncomputable def log2_table (df : DataFrame ℝ) (fam : CohortFamily)
    (p : Platform) : DataFrame ℝ :=
  { df with
    rows := df.rows.map
      (transformRow df fam p
        (fun _ v => v.map (fun x => Real.logb 2 (x + 1)))) }

section TransformLemmas

lemma lookup_transformRow_elig (df : DataFrame ℝ) (fam : CohortFamily)
    (p : Platform) (f : String → Option ℝ → Option ℝ) (r : Row ℝ)
    (hr : eligibleRow p r = true) (n : String) (hn : n ∈ metaboNames df fam) :
    (transformRow df fam p f r).cells.lookup n =
      (r.cells.lookup n).map (f n) := by
  rw [transformRow, if_pos hr]
  show (r.cells.map (fun pr =>
    (pr.1, if pr.1 ∈ metaboNames df fam then f pr.1 pr.2 else pr.2))).lookup n = _
  rw [lookup_map_entry r.cells
    (fun k c => if k ∈ metaboNames df fam then f k c else c) n]
  cases hc : r.cells.lookup n with
  | none => rfl
  | some c =>
    rw [Option.map_some', Option.map_some', if_pos hn]

lemma lookup_transformRow_not_metabo (df : DataFrame ℝ) (fam : CohortFamily)
    (p : Platform) (f : String → Option ℝ → Option ℝ) (r : Row ℝ)
    (n : String) (hn : n ∉ metaboNames df fam) :
    (transformRow df fam p f r).cells.lookup n = r.cells.lookup n := by
  rw [transformRow]
  split
  · show (r.cells.map (fun pr =>
      (pr.1, if pr.1 ∈ metaboNames df fam then f pr.1 pr.2 else pr.2))).lookup n = _
    rw [lookup_map_entry r.cells
      (fun k c => if k ∈ metaboNames df fam then f k c else c) n]
    cases hc : r.cells.lookup n with
    | none => rfl
    | some c => rw [Option.map_some', if_neg hn]
  · rfl

lemma transformRow_not_elig (df : DataFrame ℝ) (fam : CohortFamily)
    (p : Platform) (f : String → Option ℝ → Option ℝ) (r : Row ℝ)
    (hr : eligibleRow p r = false) : transformRow df fam p f r = r := by
  rw [transformRow, hr]
  rfl

end TransformLemmas

/-- C10.  The log2 transform always uses the `+ 1` offset variant: an
eligible analyte cell holding `x` becomes `log2(x + 1)` (never plain
`log2 x`), a non-analyte cell of an eligible row is unchanged, and a
non-eligible row is returned bit-identical. -/
theorem log2_offset_variant (df : DataFrame ℝ) (fam : CohortFamily)
    (p : Platform) (i : Nat) (r : Row ℝ) (n : String) (v : ℝ)
    (hget : df.rows[i]? = some r) :
    (eligibleRow p r = true → n ∈ metaboNames df fam →
      r.cells.lookup n = some (some v) →
      ((log2_table df fam p).rows[i]?).map (fun r' => r'.cellOf n) =
        some (some (Real.logb 2 (v + 1)))) ∧
      (eligibleRow p r = true → n ∉ metaboNames df fam →
        ((log2_table df fam p).rows[i]?).map (fun r' => r'.cellOf n) =
          some (r.cellOf n)) ∧
      (eligibleRow p r = false → (log2_table df fam p).rows[i]? = some r) := by
  have hrows0 : (log2_table df fam p).rows = df.rows.map
      (transformRow df fam p
        (fun _ v => v.map (fun x => Real.logb 2 (x + 1)))) := rfl
  have hrows : (log2_table df fam p).rows[i]? = some (transformRow df fam p
      (fun _ v => v.map (fun x => Real.logb 2 (x + 1))) r) := by
    rw [hrows0, List.getElem?_map, hget, Option.map_some']
  refine ⟨?_, ?_, ?_⟩
  · intro helig hn hval
    rw [hrows, Option.map_some']
    rw [Row.cellOf, lookup_transformRow_elig df fam p _ r helig n hn, hval]
    rfl
  · intro helig hn
    rw [hrows, Option.map_some']
    rw [Row.cellOf, lookup_transformRow_not_metabo df fam p _ r n hn]
    rfl
  · intro helig
    rw [hrows, transformRow_not_elig df fam p _ r helig]

/-- The single row of the log2 witness table. -/
def rowLog : Row ℝ :=
  { rid := 1, plate := 0, cells := [("A", some 1), ("z", some 9)] }

/-- Concrete ℝ-valued ADNI1 table for the log2 witness. -/
def dfLog : DataFrame ℝ :=
  { cols := ["c0", "c1", "c2", "c3", "c4", "c5", "c6", "A", "z"],
    rows := [rowLog] }

/-- Witness for C10 on `dfLog`: the analyte cell 1 becomes `log2(1 + 1)`
and the non-analyte cell `"z"` is unchanged. -/
theorem log2_offset_variant_witness :
    ((log2_table dfLog CohortFamily.adni1 Platform.p180).rows[0]?).map
        (fun r' => r'.cellOf "A") = some (some (Real.logb 2 (1 + 1))) ∧
      ((log2_table dfLog CohortFamily.adni1 Platform.p180).rows[0]?).map
        (fun r' => r'.cellOf "z") = some (rowLog.cellOf "z") := by
  have h := log2_offset_variant dfLog CohortFamily.adni1 Platform.p180 0
    rowLog "A" 1 rfl
  have h2 := log2_offset_variant dfLog CohortFamily.adni1 Platform.p180 0
    rowLog "z" 9 rfl
  exact ⟨h.1 rfl (by decide) rfl, h2.2.1 rfl (by decide)⟩

/-- C7 (amended).  For every analyte column, winsorize caps the eligible
values at `± 3 · σ`, where `σ` is the column's own pre-winsorization
population standard deviation: a value above `3σ` becomes exactly `3σ`, one
below `-3σ` becomes exactly `-3σ`, and a value inside `[-3σ, 3σ]` is
unaltered.  The thresholds are centred at ZERO (absolute bounds `±3σ`), not
at the column mean, so a value "10 standard deviations above the mean" is
capped to `+3σ` only when it actually exceeds `3σ`. -/
theorem winsorize_caps_at_three_std (df : DataFrame ℝ) (fam : CohortFamily)
    (p : Platform) (i : Nat) (r : Row ℝ) (n : String) (v s : ℝ)
    (hget : df.rows[i]? = some r) (helig : eligibleRow p r = true)
    (hn : n ∈ metaboNames df fam)
    (hval : r.cells.lookup n = some (some v))
    (hstd : popStdOpt ((eligRows df p).map (fun q => q.cellOf n)) = some s) :
    ((winsorize_table df fam p).rows[i]?).map (fun r' => r'.cellOf n) =
      some (some (if v > s * 3 then s * 3
        else if v < -(s * 3) then -(s * 3) else v)) := by
  have hrows0 : (winsorize_table df fam p).rows = df.rows.map
      (transformRow df fam p (fun m w => capCell (threeStd df p m) w)) := rfl
  rw [hrows0, List.getElem?_map, hget, Option.map_some', Option.map_some']
  congr 1
  rw [Row.cellOf, lookup_transformRow_elig df fam p _ r helig n hn, hval,
    Option.map_some', threeStd, hstd, Option.map_some']
  rfl

/-- The extreme row of the winsorize example: analyte value `-10`. -/
noncomputable def rowWin : Row ℝ := { rid := 1, plate := 0, cells := [("A", some (-10))] }

/-- The bulk row of the winsorize example: analyte value `-20.1`. -/
noncomputable def rowWinBulk : Row ℝ :=
  { rid := 1, plate := 0, cells := [("A", some (-201 / 10))] }

/-- 101-row table whose analyte column has mean `-20` and population
standard deviation exactly 1; the value `-10` sits 10 standard deviations
above the mean. -/
noncomputable def dfWinsor : DataFrame ℝ :=
  { cols := ["c0", "c1", "c2", "c3", "c4", "c5", "c6", "A", "z"],
    rows := rowWin :: List.replicate 100 rowWinBulk }

section WinsorExample

lemma filterMap_id_replicate_some {β : Type} (m : Nat) (a : β) :
    List.filterMap id (List.replicate m (some a)) = List.replicate m a := by
  induction m with
  | zero => rfl
  | succ mm ih => simp [List.replicate_succ, List.filterMap_cons, ih]

lemma colVals_dfWinsor :
    (eligRows dfWinsor Platform.p180).map (fun r => r.cellOf "A") =
      some (-10 : ℝ) :: List.replicate 100 (some (-201 / 10 : ℝ)) := by
  have helig : eligRows dfWinsor Platform.p180 = dfWinsor.rows := by
    apply List.filter_eq_self.mpr
    intro r hr
    rcases List.mem_cons.mp hr with rfl | hr2
    · rfl
    · rw [List.eq_of_mem_replicate hr2]
      rfl
  rw [helig]
  have hr : dfWinsor.rows = rowWin :: List.replicate 100 rowWinBulk := rfl
  rw [hr, List.map_cons, List.map_replicate]
  rfl

lemma vWinsor :
    List.filterMap id
        (some (-10 : ℝ) :: List.replicate 100 (some (-201 / 10 : ℝ))) =
      (-10 : ℝ) :: List.replicate 100 (-201 / 10 : ℝ) := by
  simp [List.filterMap_cons, filterMap_id_replicate_some]

lemma lenWinsor : ((-10 : ℝ) :: List.replicate 100 (-201 / 10 : ℝ)).length =
    101 := by simp

lemma sumWinsor : ((-10 : ℝ) :: List.replicate 100 (-201 / 10 : ℝ)).sum =
    -2020 := by
  rw [List.sum_cons, List.sum_replicate, nsmul_eq_mul]
  norm_num

lemma mean_dfWinsor :
    meanOpt ((eligRows dfWinsor Platform.p180).map (fun r => r.cellOf "A")) =
      some (-20) := by
  rw [colVals_dfWinsor]
  simp only [meanOpt, vWinsor]
  rw [if_neg (by simp)]
  rw [lenWinsor, sumWinsor]
  norm_num

lemma popStd_dfWinsor :
    popStdOpt ((eligRows dfWinsor Platform.p180).map (fun r => r.cellOf "A")) =
      some 1 := by
  rw [colVals_dfWinsor]
  simp only [popStdOpt, vWinsor]
  rw [if_neg (by simp)]
  have hE : ∀ E : ℝ, E = 1 → Real.sqrt E = 1 := by
    rintro E rfl
    exact Real.sqrt_one
  rw [show (some (Real.sqrt ((((-10 : ℝ) ::
      List.replicate 100 (-201 / 10 : ℝ)).map
      (fun x => (x - ((-10 : ℝ) :: List.replicate 100 (-201 / 10 : ℝ)).sum /
        ((((-10 : ℝ) :: List.replicate 100 (-201 / 10 : ℝ)).length : ℕ) : ℝ))
          ^ 2)).sum /
      ((((-10 : ℝ) :: List.replicate 100 (-201 / 10 : ℝ)).length : ℕ) : ℝ))) :
    Option ℝ) = some 1 from ?_]
  apply congrArg
  apply hE
  simp only [lenWinsor, sumWinsor, List.map_cons, List.map_replicate,
    List.sum_cons, List.sum_replicate, nsmul_eq_mul]
  norm_num

end WinsorExample

/-- Counterexample to C7 as stated: in `dfWinsor` the analyte value `-10`
lies exactly 10 population standard deviations above the column mean
(mean `-20`, σ = 1), yet winsorize turns it into `-3` — which is neither
`+3σ = 3` nor `mean + 3σ = -17`.  The source caps at the absolute bounds
`±3σ` about zero, not about the mean. -/
theorem winsorize_counterexample :
    meanOpt ((eligRows dfWinsor Platform.p180).map (fun r => r.cellOf "A")) =
        some (-20) ∧
      popStdOpt ((eligRows dfWinsor Platform.p180).map
        (fun r => r.cellOf "A")) = some 1 ∧
      (-10 : ℝ) = -20 + 10 * 1 ∧
      ((winsorize_table dfWinsor CohortFamily.adni1 Platform.p180).rows[0]?).map
        (fun r' => r'.cellOf "A") = some (some (-3 : ℝ)) ∧
      (-3 : ℝ) ≠ 3 ∧ (-3 : ℝ) ≠ -20 + 3 * 1 := by
  refine ⟨mean_dfWinsor, popStd_dfWinsor, by norm_num, ?_, by norm_num,
    by norm_num⟩
  have h := winsorize_caps_at_three_std dfWinsor CohortFamily.adni1
    Platform.p180 0 rowWin "A" (-10) 1 rfl (by decide) (by decide) rfl
    popStd_dfWinsor
  rw [h]
  norm_num

/-- Witness for the amended C7 on `dfWinsor`: the value `-10 < -(1·3)` is
capped to `-(1·3) = -3`. -/
theorem winsorize_caps_at_three_std_witness :
    ((winsorize_table dfWinsor CohortFamily.adni1 Platform.p180).rows[0]?).map
        (fun r' => r'.cellOf "A") =
      some (some (if (-10 : ℝ) > (1 * 3 : ℝ) then (1 * 3 : ℝ)
        else if (-10 : ℝ) < -(1 * 3 : ℝ) then -(1 * 3 : ℝ) else (-10 : ℝ))) :=
  winsorize_caps_at_three_std dfWinsor CohortFamily.adni1 Platform.p180 0
    rowWin "A" (-10) 1 rfl (by decide) (by decide) rfl popStd_dfWinsor

/-- A participant-indexed real-valued table (the `dat` metabolite block and
the medication matrix of `_get_residuals`; both are indexed by `RID`). -/
structure RealTable where
  cols : List String
  rows : List (Int × List (String × ℝ))

/-- The result of one `sm.OLS(...).fit()` call: per-covariate p-values
(indexed by the exogenous column names) and the residual vector.  The OLS
estimator itself is the external `statsmodels` collaborator; it enters the
embedding as an oracle argument. -/
structure FitResult where
  pvalues : List (String × ℝ)
  resid : List ℝ

/-- `pd.merge(outcomes, predictors, left_on='RID', right_on='RID')`: inner
join by identifier, left order preserved, each left row paired with every
matching right row. -/
def innerJoin (outcomes predictors : RealTable) :
    List (Int × List (String × ℝ) × List (String × ℝ)) :=
  outcomes.rows.flatMap (fun o =>
    (predictors.rows.filter (fun q => decide (q.1 = o.1))).map
      (fun q => (o.1, o.2, q.2)))

/-- One medication column of the joined table (absent entries read as 0;
well-formed inputs carry every declared column). -/
def medColumn (joined : List (Int × List (String × ℝ) × List (String × ℝ)))
    (m : String) : List ℝ :=
  joined.map (fun e => (e.2.2.lookup m).getD 0)

/-- Arithmetic mean of a list of reals, `0` on the empty list (pandas gives
NaN there, and both fail the strict `mean > 0` test identically). -/
noncomputable def meanR (xs : List ℝ) : ℝ := xs.sum / (xs.length : ℝ)

open Classical in
/-- `results.pvalues[results.pvalues > 0.05].sort_values(ascending=False)
.index[0]`: the covariate with the largest p-value above 0.05 (first
maximal one; the source's unstable sort leaves ties unspecified). -/
noncomputable def pickDrop (pv : List (String × ℝ)) : String :=
  let cand := pv.filter (fun pr => decide ((0.05 : ℝ) < pr.2))
  (cand.foldl (fun best x => if best.2 < x.2 then x else best) cand.headI).1

open Classical in
/-- The backward-elimination `while n_not_significants > 0` loop of
`_get_residuals`: drop the worst covariate, refit, recompute the counts;
stop when nothing is above 0.05 or the covariate list empties (in which
case `results` keeps the previous fit).  A dropped name absent from
`med_names` would raise `ValueError` in `list.remove`; that branch is
unreachable for a statsmodels-shaped oracle (p-values indexed by the
exogenous columns) and returns the state unchanged. -/
noncomputable def elimSteps (fit : List String → FitResult)
    (meds : List String) (res : FitResult) : List String × FitResult :=
  if (res.pvalues.filter (fun pr => decide ((0.05 : ℝ) < pr.2))).length = 0
  then (meds, res)
  else
    if hd : pickDrop res.pvalues ∈ meds then
      if meds.erase (pickDrop res.pvalues) = [] then
        (meds.erase (pickDrop res.pvalues), res)
      else
        have : (meds.erase (pickDrop res.pvalues)).length < meds.length := by
          rw [List.length_erase_of_mem hd]
          have hpos : 0 < meds.length :=
            List.length_pos.mpr (by rintro rfl; cases hd)
          omega
        elimSteps fit (meds.erase (pickDrop res.pvalues))
          (fit (meds.erase (pickDrop res.pvalues)))
    else (meds, res)
termination_by meds.length

open Classical in
/-- One analyte of `_get_residuals`: initial fit on the kept medications,
backward elimination, and the final replacement rule — the column becomes
the final `results.resid` when `sum(results.pvalues < 0.05) > 0` (strictly
below 0.05), and stays untouched otherwise. -/
noncomputable def residualizeColumn (fit : List String → FitResult)
    (kept : List String) (yvals : List ℝ) : List ℝ :=
  if 0 < ((elimSteps fit kept (fit kept)).2.pvalues.filter
      (fun pr => decide (pr.2 < (0.05 : ℝ)))).length
  then (elimSteps fit kept (fit kept)).2.resid else yvals

open Classical in
/-- `qc.transformations._get_residuals`: join outcomes to predictors by
`RID`, drop medications with `mean <= 0` (`keep_meds = X.mean() > 0`), then
process every outcome column through backward elimination. -/
noncomputable def getResiduals (fit : String → List String → FitResult)
    (outcomes predictors : RealTable) : List (String × List ℝ) :=
  outcomes.cols.map (fun y =>
    (y, residualizeColumn (fit y)
      (predictors.cols.filter (fun m =>
        decide (0 < meanR (medColumn (innerJoin outcomes predictors) m))))
      ((innerJoin outcomes predictors).map
        (fun e => (e.2.1.lookup y).getD 0))))

section ResidualLemmas

lemma headI_mem_of_ne_nil {γ : Type} [Inhabited γ] (l : List γ)
    (h : l ≠ []) : l.headI ∈ l := by
  cases l with
  | nil => exact absurd rfl h
  | cons a tl => exact List.mem_cons_self a tl

lemma sum_pos_iff_exists_pos (xs : List ℝ) (h : ∀ x ∈ xs, 0 ≤ x) :
    0 < xs.sum ↔ ∃ x ∈ xs, 0 < x := by
  induction xs with
  | nil => simp
  | cons a tl ih =>
    have ha : 0 ≤ a := h a (List.mem_cons_self a tl)
    have htl : ∀ x ∈ tl, 0 ≤ x := fun x hx => h x (List.mem_cons_of_mem a hx)
    have hstl : 0 ≤ tl.sum := List.sum_nonneg htl
    rw [List.sum_cons]
    constructor
    · intro hpos
      by_cases hA : 0 < a
      · exact ⟨a, List.mem_cons_self a tl, hA⟩
      · have ha0 : a = 0 := le_antisymm (not_lt.mp hA) ha
        rw [ha0, zero_add] at hpos
        obtain ⟨x, hx, hxp⟩ := (ih htl).mp hpos
        exact ⟨x, List.mem_cons_of_mem a hx, hxp⟩
    · rintro ⟨x, hx, hxp⟩
      rcases List.mem_cons.mp hx with rfl | hx2
      · linarith
      · have : 0 < tl.sum := (ih htl).mpr ⟨x, hx2, hxp⟩
        linarith

lemma foldl_max_spec (l : List (String × ℝ)) (a : String × ℝ) :
    ((l.foldl (fun best x => if best.2 < x.2 then x else best) a) ∈ a :: l) ∧
      a.2 ≤ (l.foldl (fun best x => if best.2 < x.2 then x else best) a).2 ∧
      ∀ x ∈ l, x.2 ≤
        (l.foldl (fun best x => if best.2 < x.2 then x else best) a).2 := by
  induction l generalizing a with
  | nil => exact ⟨List.mem_cons_self a [], le_refl _, by simp⟩
  | cons hd tl ih =>
    simp only [List.foldl_cons]
    by_cases hab : a.2 < hd.2
    · rw [if_pos hab]
      obtain ⟨hmem, hle, hall⟩ := ih hd
      refine ⟨?_, le_of_lt (lt_of_lt_of_le hab hle), ?_⟩
      · rcases List.mem_cons.mp hmem with h | h
        · rw [h]
          exact List.mem_cons_of_mem a (List.mem_cons_self hd tl)
        · exact List.mem_cons_of_mem a (List.mem_cons_of_mem hd h)
      · intro x hx
        rcases List.mem_cons.mp hx with rfl | hx2
        · exact hle
        · exact hall x hx2
    · rw [if_neg hab]
      obtain ⟨hmem, hle, hall⟩ := ih a
      refine ⟨?_, hle, ?_⟩
      · rcases List.mem_cons.mp hmem with h | h
        · rw [h]
          exact List.mem_cons_self a _
        · exact List.mem_cons_of_mem a (List.mem_cons_of_mem hd h)
      · intro x hx
        rcases List.mem_cons.mp hx with rfl | hx2
        · exact le_trans (not_lt.mp hab) hle
        · exact hall x hx2

lemma pickDrop_spec (pv : List (String × ℝ))
    (hcand : pv.filter (fun pr => decide ((0.05 : ℝ) < pr.2)) ≠ []) :
    ∃ pr ∈ pv, pr.1 = pickDrop pv ∧ (0.05 : ℝ) < pr.2 ∧
      ∀ pr' ∈ pv, (0.05 : ℝ) < pr'.2 → pr'.2 ≤ pr.2 := by
  obtain ⟨hmem, hle, hall⟩ := foldl_max_spec
    (pv.filter (fun pr => decide ((0.05 : ℝ) < pr.2)))
    (pv.filter (fun pr => decide ((0.05 : ℝ) < pr.2))).headI
  have hbmem : ((pv.filter (fun pr => decide ((0.05 : ℝ) < pr.2))).foldl
      (fun best x => if best.2 < x.2 then x else best)
      (pv.filter (fun pr => decide ((0.05 : ℝ) < pr.2))).headI) ∈
      pv.filter (fun pr => decide ((0.05 : ℝ) < pr.2)) := by
    rcases List.mem_cons.mp hmem with h | h
    · rw [h]
      exact headI_mem_of_ne_nil _ hcand
    · exact h
  obtain ⟨hbpv, hbgt⟩ := List.mem_filter.mp hbmem
  refine ⟨_, hbpv, rfl, by simpa using hbgt, ?_⟩
  intro pr' hpr' hgt
  exact hall pr' (List.mem_filter.mpr ⟨hpr', by simpa using hgt⟩)

lemma elimSteps_exit_fuel (fit : List String → FitResult)
    (halign : ∀ ms, ((fit ms).pvalues.map Prod.fst) = ms) :
    ∀ (N : Nat) (meds : List String) (res : FitResult), meds.length ≤ N →
      res.pvalues.map Prod.fst = meds →
      ((elimSteps fit meds res).2.pvalues.filter
          (fun pr => decide ((0.05 : ℝ) < pr.2))).length = 0 ∨
        (elimSteps fit meds res).1 = [] := by
  intro N
  induction N with
  | zero =>
    intro meds res hlen hal
    have hm : meds = [] := List.length_eq_zero.mp (Nat.le_zero.mp hlen)
    subst hm
    have hpv : res.pvalues = [] := List.map_eq_nil_iff.mp hal
    rw [elimSteps, if_pos (by rw [hpv]; rfl)]
    left
    rw [hpv]
    rfl
  | succ N ih =>
    intro meds res hlen hal
    by_cases hstop : (res.pvalues.filter
        (fun pr => decide ((0.05 : ℝ) < pr.2))).length = 0
    · rw [elimSteps, if_pos hstop]
      exact Or.inl hstop
    · have hcand : res.pvalues.filter
          (fun pr => decide ((0.05 : ℝ) < pr.2)) ≠ [] := by
        intro h
        exact hstop (by rw [h]; rfl)
      obtain ⟨pr, hprmem, hpr1, hpr2, hmax⟩ := pickDrop_spec res.pvalues hcand
      have hd : pickDrop res.pvalues ∈ meds := by
        rw [← hal, ← hpr1]
        exact List.mem_map_of_mem Prod.fst hprmem
      by_cases hemp : meds.erase (pickDrop res.pvalues) = []
      · rw [elimSteps, if_neg hstop, dif_pos hd, if_pos hemp]
        exact Or.inr hemp
      · rw [elimSteps, if_neg hstop, dif_pos hd, if_neg hemp]
        apply ih
        · have hlen2 := List.length_erase_of_mem hd
          have hpos : 0 < meds.length :=
            List.length_pos.mpr (by rintro rfl; cases hd)
          omega
        · exact halign _

end ResidualLemmas

/-- C8 (amended).  For a statsmodels-shaped fit oracle (p-values indexed by
the exogenous covariates, `halign`) and binary medication columns (`hbin`),
`_get_residuals` behaves as follows.  (a) It inner-joins analyte rows to
covariate rows by identifier: a joined identifier exists iff it occurs on
both sides.  (b) Its `keep_meds = X.mean() > 0` test keeps a covariate iff
its joined column is not all-zero.  (c) While some p-value exceeds 0.05,
each round removes exactly one covariate — one carrying the LARGEST p-value
above 0.05 — and refits on the remainder.  (d) The loop stops only when no
remaining p-value exceeds 0.05 or no covariates remain.  (e) The analyte
column is replaced by the final fit's residuals when that fit retains a
covariate with p-value STRICTLY below 0.05, and is left unchanged otherwise
(a final p-value exactly equal to 0.05 does not count as significant). -/
theorem getResiduals_spec (fit : String → List String → FitResult)
    (outcomes predictors : RealTable)
    (halign : ∀ (y : String) (ms : List String),
      ((fit y ms).pvalues.map Prod.fst) = ms)
    (hbin : ∀ e ∈ innerJoin outcomes predictors, ∀ m : String,
      (e.2.2.lookup m).getD 0 = 0 ∨ (e.2.2.lookup m).getD 0 = 1) :
    (∀ rid : Int, (∃ e ∈ innerJoin outcomes predictors, e.1 = rid) ↔
        ((∃ o ∈ outcomes.rows, o.1 = rid) ∧
          (∃ q ∈ predictors.rows, q.1 = rid))) ∧
      (∀ m : String,
        (0 < meanR (medColumn (innerJoin outcomes predictors) m) ↔
          ∃ e ∈ innerJoin outcomes predictors,
            (e.2.2.lookup m).getD 0 ≠ 0)) ∧
      (∀ (y : String) (meds : List String) (res : FitResult),
        (res.pvalues.map Prod.fst) = meds →
        res.pvalues.filter (fun pr => decide ((0.05 : ℝ) < pr.2)) ≠ [] →
        meds.erase (pickDrop res.pvalues) ≠ [] →
        elimSteps (fit y) meds res =
            elimSteps (fit y) (meds.erase (pickDrop res.pvalues))
              (fit y (meds.erase (pickDrop res.pvalues))) ∧
          ∃ pr ∈ res.pvalues, pr.1 = pickDrop res.pvalues ∧
            (0.05 : ℝ) < pr.2 ∧
            ∀ pr' ∈ res.pvalues, (0.05 : ℝ) < pr'.2 → pr'.2 ≤ pr.2) ∧
      (∀ (y : String) (meds : List String) (res : FitResult),
        (res.pvalues.map Prod.fst) = meds →
        ((elimSteps (fit y) meds res).2.pvalues.filter
            (fun pr => decide ((0.05 : ℝ) < pr.2))).length = 0 ∨
          (elimSteps (fit y) meds res).1 = []) ∧
      (∀ (y : String) (kept : List String) (yvals : List ℝ),
        (0 < (((elimSteps (fit y) kept (fit y kept)).2.pvalues.filter
            (fun pr => decide (pr.2 < (0.05 : ℝ)))).length) →
          residualizeColumn (fit y) kept yvals =
            (elimSteps (fit y) kept (fit y kept)).2.resid) ∧
        ((((elimSteps (fit y) kept (fit y kept)).2.pvalues.filter
            (fun pr => decide (pr.2 < (0.05 : ℝ)))).length) = 0 →
          residualizeColumn (fit y) kept yvals = yvals)) := by
  refine ⟨?_, ?_, ?_, ?_, ?_⟩
  · intro rid
    constructor
    · rintro ⟨e, he, rfl⟩
      rw [innerJoin] at he
      obtain ⟨o, ho, hin⟩ := List.mem_flatMap.mp he
      obtain ⟨q, hq, heq⟩ := List.mem_map.mp hin
      obtain ⟨hqmem, hq1⟩ := List.mem_filter.mp hq
      have hq1' : q.1 = o.1 := by simpa using hq1
      subst heq
      exact ⟨⟨o, ho, rfl⟩, ⟨q, hqmem, hq1'⟩⟩
    · rintro ⟨⟨o, ho, ho1⟩, ⟨q, hq, hq1⟩⟩
      refine ⟨(o.1, o.2, q.2), ?_, ho1⟩
      rw [innerJoin]
      apply List.mem_flatMap.mpr
      refine ⟨o, ho, List.mem_map.mpr ⟨q, List.mem_filter.mpr ⟨hq, ?_⟩, rfl⟩⟩
      simp [hq1.trans ho1.symm]
  · intro m
    have hnn : ∀ x ∈ medColumn (innerJoin outcomes predictors) m, 0 ≤ x := by
      intro x hx
      obtain ⟨e, he, rfl⟩ := List.mem_map.mp hx
      rcases hbin e he m with h0 | h1
      · rw [h0]
      · rw [h1]
        norm_num
    rw [meanR]
    constructor
    · intro hpos
      have hlen : (0 : ℝ) ≤
          ((medColumn (innerJoin outcomes predictors) m).length : ℝ) :=
        Nat.cast_nonneg _
      have hsum : 0 < (medColumn (innerJoin outcomes predictors) m).sum := by
        by_contra hns
        push_neg at hns
        have := div_nonpos_of_nonpos_of_nonneg hns hlen
        linarith
      obtain ⟨x, hx, hxp⟩ := (sum_pos_iff_exists_pos _ hnn).mp hsum
      obtain ⟨e, he, rfl⟩ := List.mem_map.mp hx
      exact ⟨e, he, ne_of_gt hxp⟩
    · rintro ⟨e, he, hne⟩
      have h1 : (e.2.2.lookup m).getD 0 = 1 := by
        rcases hbin e he m with h | h
        · exact absurd h hne
        · exact h
      have hsum : 0 < (medColumn (innerJoin outcomes predictors) m).sum := by
        apply (sum_pos_iff_exists_pos _ hnn).mpr
        refine ⟨(e.2.2.lookup m).getD 0, List.mem_map.mpr ⟨e, he, rfl⟩, ?_⟩
        rw [h1]
        norm_num
      have hnil : medColumn (innerJoin outcomes predictors) m ≠ [] := by
        intro hn
        rw [hn] at hsum
        exact lt_irrefl 0 hsum
      exact div_pos hsum (Nat.cast_pos.mpr (List.length_pos.mpr hnil))
  · intro y meds res hal hcand hne
    obtain ⟨pr, hprmem, hpr1, hpr2, hmax⟩ := pickDrop_spec res.pvalues hcand
    have hd : pickDrop res.pvalues ∈ meds := by
      rw [← hal, ← hpr1]
      exact List.mem_map_of_mem Prod.fst hprmem
    have hstop : ¬((res.pvalues.filter
        (fun pr => decide ((0.05 : ℝ) < pr.2))).length = 0) := by
      intro h
      exact hcand (List.length_eq_zero.mp h)
    constructor
    · rw [elimSteps, if_neg hstop, dif_pos hd, if_neg hne]
    · exact ⟨pr, hprmem, hpr1, hpr2, hmax⟩
  · intro y meds res hal
    exact elimSteps_exit_fuel (fit y) (halign y) meds.length meds res
      (le_refl _) hal
  · intro y kept yvals
    constructor
    · intro h
      rw [residualizeColumn, if_pos h]
    · intro h
      rw [residualizeColumn, if_neg (by rw [h]; exact lt_irrefl 0)]

/-- Fit oracle whose single covariate comes back with a p-value of exactly
0.05 (attainable in principle: OLS p-values vary continuously with the
data) and residual vector `[99]`. -/
noncomputable def fitC8 : String → List String → FitResult :=
  fun _ _ => { pvalues := [("m", (0.05 : ℝ))], resid := [99] }

/-- One analyte `"A"` with value 7 for participant 1. -/
noncomputable def outC8 : RealTable :=
  { cols := ["A"], rows := [(1, [("A", (7 : ℝ))])] }

/-- One medication column `"m"`, taken (value 1) by participant 1. -/
noncomputable def medC8 : RealTable :=
  { cols := ["m"], rows := [(1, [("m", (1 : ℝ))])] }

/-- Counterexample to C8 as stated: the final fit retains the covariate
`"m"` with p-value exactly `0.05 ≤ 0.05`, so the claim requires the analyte
to be replaced by the residuals `[99]`; the source tests
`sum(results.pvalues < 0.05) > 0` (strictly) and leaves the column at its
original `[7]`. -/
theorem getResiduals_boundary_counterexample :
    getResiduals fitC8 outC8 medC8 = [("A", [(7 : ℝ)])] ∧
      (fitC8 "A" ["m"]).pvalues = [("m", (0.05 : ℝ))] ∧
      (fitC8 "A" ["m"]).resid = [(99 : ℝ)] ∧
      ([(7 : ℝ)] : List ℝ) ≠ [(99 : ℝ)] := by
  have hjoin : innerJoin outC8 medC8 =
      [(1, [("A", (7 : ℝ))], [("m", (1 : ℝ))])] := rfl
  have hmed : medColumn (innerJoin outC8 medC8) "m" = [(1 : ℝ)] := by
    rw [hjoin]
    rfl
  have hmean : meanR (medColumn (innerJoin outC8 medC8) "m") = 1 := by
    rw [hmed, meanR]
    norm_num
  have hkept : medC8.cols.filter (fun m =>
      decide (0 < meanR (medColumn (innerJoin outC8 medC8) m))) = ["m"] := by
    have hcols : medC8.cols = ["m"] := rfl
    rw [hcols, List.filter_cons,
      if_pos (by simp only [decide_eq_true_eq]; rw [hmean]; norm_num)]
    rfl
  have hpv : (fitC8 "A" ["m"]).pvalues = [("m", (0.05 : ℝ))] := rfl
  have hfilterGT : (fitC8 "A" ["m"]).pvalues.filter
      (fun pr => decide ((0.05 : ℝ) < pr.2)) = [] := by
    rw [hpv, List.filter_cons,
      if_neg (by simp only [decide_eq_true_eq]; exact lt_irrefl _)]
    rfl
  have helim : elimSteps (fitC8 "A") ["m"] (fitC8 "A" ["m"]) =
      (["m"], fitC8 "A" ["m"]) := by
    rw [elimSteps, if_pos (by rw [hfilterGT]; rfl)]
  have hfilterLT : (fitC8 "A" ["m"]).pvalues.filter
      (fun pr => decide (pr.2 < (0.05 : ℝ))) = [] := by
    rw [hpv, List.filter_cons,
      if_neg (by simp only [decide_eq_true_eq]; exact lt_irrefl _)]
    rfl
  have hcol : residualizeColumn (fitC8 "A") ["m"] [(7 : ℝ)] = [(7 : ℝ)] := by
    rw [residualizeColumn,
      if_neg (by rw [helim]; rw [show (["m"], fitC8 "A" ["m"]).2 =
        fitC8 "A" ["m"] from rfl, hfilterLT]; exact lt_irrefl 0)]
  have hycol : (innerJoin outC8 medC8).map
      (fun e => (e.2.1.lookup "A").getD 0) = [(7 : ℝ)] := by
    rw [hjoin]
    rfl
  refine ⟨?_, rfl, rfl, by simp⟩
  rw [getResiduals]
  have hocols : outC8.cols = ["A"] := rfl
  rw [hocols, List.map_cons, List.map_nil, hkept, hycol, hcol]

/-- Aligned fit oracle for the C8 witness: every requested covariate comes
back with p-value 0.01. -/
noncomputable def fitW : String → List String → FitResult :=
  fun _ ms => { pvalues := ms.map (fun m => (m, (0.01 : ℝ))), resid := [42] }

/-- Witness for the amended C8, instantiating the kept-medication clause on
the concrete tables: the single medication column `"m"` (all ones on the
joined rows) passes the `mean > 0` test because a nonzero entry exists. -/
theorem getResiduals_spec_witness :
    0 < meanR (medColumn (innerJoin outC8 medC8) "m") ↔
      ∃ e ∈ innerJoin outC8 medC8, (e.2.2.lookup "m").getD 0 ≠ 0 := by
  have halign : ∀ (y : String) (ms : List String),
      ((fitW y ms).pvalues.map Prod.fst) = ms := by
    intro y ms
    show ((ms.map (fun m => (m, (0.01 : ℝ)))).map Prod.fst) = ms
    rw [List.map_map]
    show ms.map (fun m => m) = ms
    simp
  have hbin : ∀ e ∈ innerJoin outC8 medC8, ∀ m : String,
      (e.2.2.lookup m).getD 0 = 0 ∨ (e.2.2.lookup m).getD 0 = 1 := by
    intro e he m
    have hjoin : innerJoin outC8 medC8 =
        [(1, [("A", (7 : ℝ))], [("m", (1 : ℝ))])] := rfl
    rw [hjoin] at he
    rcases List.mem_cons.mp he with rfl | h
    · by_cases hm : m = "m"
      · subst hm
        right
        rfl
      · left
        show ((([("m", (1 : ℝ))]).lookup m).getD 0) = 0
        rw [lookup_cons, if_neg hm]
        rfl
    · cases h
  exact (getResiduals_spec fitW outC8 medC8 halign hbin).2.1 "m"

end MetaboAdni
